import Mathlib

/-!
# powermax_exporter: latest-sample extraction, resource listing and the collection cycle

A shallow embedding of `powermax/powermax.go` and `exporter/exporter.go`.

* Go code that can stop the process is given an `Outcome`: a normal return, a
  run-time panic (failed type assertion, index out of range, nil descriptor),
  a fatal log call, or a wait that never ends.
* `encoding/json`, the HTTP transport, the configuration and the clock are
  collaborators of the program; they are the fields of `Env`.
* A Go `map` is an association list; ranging over it visits the list in order,
  which stands for whatever iteration order the run time picks.
* A finite `float64`/`float32` is represented by the rational number it denotes.
-/

namespace PowerMaxExporter

/-! ## Outcomes of running Go code -/

/-- Result of running a Go function: it returns, panics, exits through
`Logger.Fatal`, or blocks for ever. -/
inductive Outcome (α : Type) where
  | ok (a : α)
  | panic
  | fatal
  | blocked
  deriving DecidableEq, Repr

namespace Outcome

/-- Sequencing: a panic or a fatal exit of the first step ends the run. -/
def bind {α β : Type} (x : Outcome α) (f : α → Outcome β) : Outcome β :=
  match x with
  | ok a => f a
  | panic => panic
  | fatal => fatal
  | blocked => blocked

/-- Runs `f` on every element in order and collects the results; stops at the first failure. -/
def mapM {α β : Type} (f : α → Outcome β) : List α → Outcome (List β)
  | [] => ok []
  | a :: as => (f a).bind fun b => (mapM f as).bind fun bs => ok (b :: bs)

end Outcome

/-! ## Go values -/

/-- Numeric value denoted by a finite `float64`. -/
abbrev Float64 := ℚ

/-- Dynamic value stored in a Go `interface{}`; the numeric kinds are the ones
`extractLatestMetrics` switches on. -/
inductive GoValue where
  | nil
  | bool (b : Bool)
  | int (v : Int)
  | int32 (v : Int)
  | int64 (v : Int)
  | float32 (v : ℚ)
  | float64 (v : Float64)
  | string (s : String)
  | slice (l : List GoValue)
  | map (m : List (String × GoValue))

/-- The kinds the type switch of `extractLatestMetrics` converts: `int`,
`int32`, `int64`, `float32` and `float64`. -/
def GoValue.isNumeric : GoValue → Bool
  | .int _ => true
  | .int32 _ => true
  | .int64 _ => true
  | .float32 _ => true
  | .float64 _ => true
  | _ => false

/-- The kinds `json.Unmarshal` stores in an `interface{}`: nil for null, `bool`,
`float64` for every number, `string`, `[]interface{}` and `map[string]interface{}`. -/
def GoValue.isJSONKind : GoValue → Bool
  | .nil => true
  | .bool _ => true
  | .float64 _ => true
  | .string _ => true
  | .slice _ => true
  | .map _ => true
  | _ => false

/-- The number a numeric Go value stands for. -/
def GoValue.numericValue : GoValue → Option ℚ
  | .int v => some (v : ℚ)
  | .int32 v => some (v : ℚ)
  | .int64 v => some (v : ℚ)
  | .float32 x => some x
  | .float64 x => some x
  | _ => none

/-- Numeric values whose conversion to `float64` is shown exact below: every
`float64` and `float32`, every `int32` (within its 32-bit range), and the
`int` and `int64` values of magnitude at most `2 ^ 53`. -/
def GoValue.exactlyConvertible : GoValue → Prop
  | .int v => v.natAbs ≤ 2 ^ 53
  | .int32 v => -2 ^ 31 ≤ v ∧ v < 2 ^ 31
  | .int64 v => v.natAbs ≤ 2 ^ 53
  | .float32 _ => True
  | .float64 _ => True
  | _ => False

/-- Go map assignment `m[k] = v`: overwrite the entry of `k`, or add one. -/
def mapSet {β : Type} (m : List (String × β)) (k : String) (v : β) : List (String × β) :=
  match m with
  | [] => [(k, v)]
  | (k', v') :: rest => if k' = k then (k, v) :: rest else (k', v') :: mapSet rest k v

/-- Go map read `m[k]` on a `map[string]string`: the zero value `""` when `k` is absent. -/
def mapGet (m : List (String × String)) (k : String) : String :=
  match m with
  | [] => ""
  | (k', v) :: rest => if k' = k then v else mapGet rest k

/-- Round the natural number `n` to a multiple of `2 ^ k`, ties to the even multiple. -/
def roundShift (n k : Nat) : Nat :=
  let q := n / 2 ^ k
  let r := n % 2 ^ k
  if 2 * r < 2 ^ k then q * 2 ^ k
  else if 2 ^ k < 2 * r then (q + 1) * 2 ^ k
  else if q % 2 = 0 then q * 2 ^ k
  else (q + 1) * 2 ^ k

/-- Number of low bits of `n` that do not fit a 53-bit significand, for `n < 2 ^ 64`. -/
def excessBits (n : Nat) : Nat :=
  ((List.range 11).filter fun i => 2 ^ (53 + i) ≤ n).length

/-- Go conversion `float64(v)` of an integer of at most 64 bits: the nearest
`float64`, ties to even (IEEE 754 round-to-nearest-even on a 53-bit significand). -/
def float64OfInt (v : Int) : Float64 :=
  let n := v.natAbs
  let r : Int := roundShift n (excessBits n)
  if v < 0 then ((-r : Int) : ℚ) else (r : ℚ)

/-- Go conversion `float64(x)` of a `float32`: exact, every `float32` is a `float64`. -/
def float64OfFloat32 (x : ℚ) : Float64 := x

/-! ## `powermax.go` -/

def httpNoContent : Int := 204
def httpPartialContent : Int := 206

/-- The part of a `*resty.Response` the program reads. -/
structure Response where
  StatusCode : Int
  Body : String
  deriving DecidableEq, Repr

/-- The resty method `Response.IsError`: status code above 399. -/
def Response.IsError (r : Response) : Bool := decide (399 < r.StatusCode)

/-- Go struct `ResultList` inside `baseResult`. -/
structure ResultList where
  Result : List GoValue
  From : Int
  To : Int

/-- Go struct `baseResult`, the envelope of a metrics response. -/
structure baseResult where
  ResultList : ResultList
  ID : String
  Count : Int
  ExpirationTime : Int
  MaxPageSize : Int

/-- A metric sample: `map[string]float64`. -/
abbrev Sample := List (String × Float64)

/-- One iteration of the loop over the latest record (`for k, v := range latest`). -/
def extractField (ret : Sample) (kv : String × GoValue) : Sample :=
  if kv.1 = "timestamp" then ret
  else
    match kv.2 with
    | .int v => mapSet ret kv.1 (float64OfInt v)
    | .int32 v => mapSet ret kv.1 (float64OfInt v)
    | .int64 v => mapSet ret kv.1 (float64OfInt v)
    | .float32 x => mapSet ret kv.1 (float64OfFloat32 x)
    | .float64 x => mapSet ret kv.1 x
    | _ => ret

/-- Go `s[i]` on a slice with an `int64` index: `none` stands for the index-out-of-range panic. -/
def sliceIndex {α : Type} (s : List α) (i : Int) : Option α :=
  if i < 0 then none else s.get? i.toNat

/-- Function `extractLatestMetrics`. `none` in the result is Go's `nil` map (no sample).
`unmarshal` is `json.Unmarshal(resp.Body(), &data)`; `none` is a decode error.
`Count - 1` is taken exactly: the one `int64` it would wrap on, the minimum,
gives an index that is out of range either way. -/
def extractLatestMetrics (unmarshal : String → Option baseResult)
    (resp : Option Response) : Outcome (Option Sample) :=
  match resp with
  | none => .ok none
  | some resp =>
    if resp.StatusCode = httpNoContent then .ok none
    else if resp.StatusCode = httpPartialContent then .ok none
    else
      match unmarshal resp.Body with
      | none => .ok none
      | some data =>
        if data.Count = 0 then .ok none
        else
          match sliceIndex data.ResultList.Result (data.Count - 1) with
          | some (.map latest) => .ok (some (latest.foldl extractField []))
          | _ => .panic

/-- Go struct `basePayload`, the common part of a metrics request. -/
structure basePayload where
  SymmetrixID : String
  DataFormat : String
  Metrics : List String
  StartDate : Int
  EndDate : Int
  deriving DecidableEq, Repr

/-- Request bodies the program posts: a `map[string]string` filter for a key
listing, or a `basePayload` with the type-specific key fields for a metrics fetch. -/
inductive Payload where
  | keys (filter : List (String × String))
  | metrics (base : basePayload) (keyFields : List (String × String))
  deriving DecidableEq, Repr

/-- What an HTTP call gives back: the `*resty.Response` (possibly nil) and the error (possibly nil). -/
abbrev Reply := Option Response × Option String

/-- Go struct `PowerMax`; its unexported `client` field is the HTTP
collaborator, whose replies are part of `Env`. -/
structure PowerMax where
  APIEndPoint : String
  User : String
  Password : String
  SymmID : String
  deriving DecidableEq, Repr

/-- Collaborators outside the two packages, as they stand during one call:
the table `powermax.Metrics` (its file is not among the sources), the two
uses of `json.Unmarshal`, the `Config.Exporter.Update` flag, the clock (Unix
seconds), and the reply of the upstream to a POST of a body to a URL. -/
structure Env where
  Metrics : String → List String
  unmarshalResult : String → Option baseResult
  unmarshalObject : String → Option (List (String × GoValue))
  Update : Bool
  now : Int
  http : String → Payload → Reply

/-- Method `PowerMax.url`. -/
def PowerMax.url (pm : PowerMax) (uri : String) : String := pm.APIEndPoint ++ uri

/-- Method `PowerMax.Post`; the `ReqCounter` gate around the call only delays it. -/
def PowerMax.Post (pm : PowerMax) (env : Env) (uri : String) (body : Payload) : Reply :=
  env.http (pm.url uri) body

/-- Method `PowerMax.GetLatestArrayMetrics`; `reportIssues` only logs. -/
def PowerMax.GetLatestArrayMetrics (pm : PowerMax) (env : Env) (startTime endTime : Int) :
    Outcome (Option Sample) :=
  let uri := "/performance/Array/metrics"
  let payload := Payload.metrics
    { SymmetrixID := pm.SymmID, DataFormat := "Average", Metrics := env.Metrics "array",
      StartDate := startTime, EndDate := endTime } []
  let reply := pm.Post env uri payload
  extractLatestMetrics env.unmarshalResult reply.1

/-- Method `PowerMax.GetLatestCacheMetrics`. -/
def PowerMax.GetLatestCacheMetrics (pm : PowerMax) (env : Env) (startTime endTime : Int)
    (id : String) : Outcome (Option Sample) :=
  let uri := "/performance/CachePartition/metrics"
  let payload := Payload.metrics
    { SymmetrixID := pm.SymmID, DataFormat := "Average", Metrics := env.Metrics "cache",
      StartDate := startTime, EndDate := endTime } [("cachePartitionId", id)]
  let reply := pm.Post env uri payload
  extractLatestMetrics env.unmarshalResult reply.1

/-- The `urim` table of `GetLatestPortMetrics`. -/
def portMetricsURI (dirType : String) : Option String :=
  if dirType = "fe" then some "/performance/FEPort/metrics"
  else if dirType = "be" then some "/performance/BEPort/metrics"
  else none

/-- Method `PowerMax.GetLatestPortMetrics`. -/
def PowerMax.GetLatestPortMetrics (pm : PowerMax) (env : Env) (startTime endTime : Int)
    (dirType dirID portID : String) : Outcome (Option Sample) :=
  match portMetricsURI dirType with
  | none => .ok none
  | some uri =>
    let payload := Payload.metrics
      { SymmetrixID := pm.SymmID, DataFormat := "Average",
        Metrics := env.Metrics (dirType ++ "port"),
        StartDate := startTime, EndDate := endTime }
      [("directorId", dirID), ("portId", portID)]
    let reply := pm.Post env uri payload
    extractLatestMetrics env.unmarshalResult reply.1

/-- Method `PowerMax.GetLatestStorageGroupMetrics`. -/
def PowerMax.GetLatestStorageGroupMetrics (pm : PowerMax) (env : Env) (startTime endTime : Int)
    (id : String) : Outcome (Option Sample) :=
  let uri := "/performance/StorageGroup/metrics"
  let payload := Payload.metrics
    { SymmetrixID := pm.SymmID, DataFormat := "Average", Metrics := env.Metrics "storagegroup",
      StartDate := startTime, EndDate := endTime } [("storageGroupId", id)]
  let reply := pm.Post env uri payload
  extractLatestMetrics env.unmarshalResult reply.1

/-- Inner loop of `listResourceIDs` over the fields of one entry: the string values, in order. -/
def stringFields (res : List (String × GoValue)) : List String :=
  res.filterMap fun kv =>
    match kv.2 with
    | .string s => some s
    | _ => none

/-- Body of the loop over `resources`: the assertion `entry.(map[string]interface{})`
panics on anything that is not an object. -/
def entryIDs (entry : GoValue) : Outcome (List String) :=
  match entry with
  | .map res => .ok (stringFields res)
  | _ => .panic

/-- Body of the loop over `data`: the assertion `info.([]interface{})`
panics on anything that is not an array. -/
def infoIDs (info : GoValue) : Outcome (List String) :=
  match info with
  | .slice resources => (Outcome.mapM entryIDs resources).bind fun ids => .ok ids.flatten
  | _ => .panic

/-- Method `PowerMax.listResourceIDs`. A `[]string` is a list; Go's nil slice is `[]`.
Calling `IsError` on a nil response dereferences it. -/
def PowerMax.listResourceIDs (pm : PowerMax) (env : Env) (uri : String)
    (payload : List (String × String)) : Outcome (List String) :=
  match pm.Post env uri (.keys payload) with
  | (_, some _) => .ok []
  | (none, none) => .panic
  | (some resp, none) =>
    if resp.IsError then .ok []
    else
      match env.unmarshalObject resp.Body with
      | none => .ok []
      | some data =>
        if data.length ≠ 1 then .ok []
        else (Outcome.mapM (fun kv => infoIDs kv.2) data).bind fun ids => .ok ids.flatten

/-- Method `PowerMax.ListCachePartitionIDs`. -/
def PowerMax.ListCachePartitionIDs (pm : PowerMax) (env : Env) : Outcome (List String) :=
  pm.listResourceIDs env "/performance/CachePartition/keys" [("symmetrixId", pm.SymmID)]

/-- Method `PowerMax.ListStorageGroupIDs`. -/
def PowerMax.ListStorageGroupIDs (pm : PowerMax) (env : Env) : Outcome (List String) :=
  pm.listResourceIDs env "/performance/StorageGroup/keys" [("symmetrixId", pm.SymmID)]

/-- Method `PowerMax.ListDirectorIDs`. -/
def PowerMax.ListDirectorIDs (pm : PowerMax) (env : Env) (dirType : String) :
    Outcome (List String) :=
  if dirType = "fe" then
    pm.listResourceIDs env "/performance/FEDirector/keys" [("symmetrixId", pm.SymmID)]
  else if dirType = "be" then
    pm.listResourceIDs env "/performance/BEDirector/keys" [("symmetrixId", pm.SymmID)]
  else .ok []

/-- Method `PowerMax.ListPortIDs`. -/
def PowerMax.ListPortIDs (pm : PowerMax) (env : Env) (dirType dirID : String) :
    Outcome (List String) :=
  if dirType = "fe" then
    pm.listResourceIDs env "/performance/FEPort/keys"
      [("symmetrixId", pm.SymmID), ("directorId", dirID)]
  else if dirType = "be" then
    pm.listResourceIDs env "/performance/BEPort/keys"
      [("symmetrixId", pm.SymmID), ("directorId", dirID)]
  else .ok []

/-- One element of `arrayInfo` in the struct `ListArrays` decodes into. -/
structure arrayInfo where
  SymmetrixID : String
  FirstAvailableDate : Int
  LastAvailableDate : Int
  deriving DecidableEq, Repr

/-- The anonymous struct `data` of `ListArrays`. -/
structure arrayKeys where
  ArrayInfo : List arrayInfo
  deriving DecidableEq, Repr

/-- Collaborators of the startup check: the reply of the upstream to a GET of a
URL with query parameters, and `json.Unmarshal(resp.Body(), &data)` of
`ListArrays` (`none` is a decode error). -/
structure StartEnv where
  httpGet : String → List (String × String) → Reply
  unmarshalArrays : String → Option arrayKeys

/-- Method `PowerMax.Get`; the `ReqCounter` gate around the call only delays it. -/
def PowerMax.Get (pm : PowerMax) (senv : StartEnv) (uri : String)
    (params : List (String × String)) : Reply :=
  senv.httpGet (pm.url uri) params

/-- Method `PowerMax.ListArrays`: a transport error, an error status and a
decode error each end in `Logger.Fatal`. Calling `IsError` on a nil response
dereferences it. -/
def PowerMax.ListArrays (pm : PowerMax) (senv : StartEnv) : Outcome (List String) :=
  match pm.Get senv "/performance/Array/keys" [] with
  | (_, some _) => .fatal
  | (none, none) => .panic
  | (some resp, none) =>
    if resp.IsError then .fatal
    else
      match senv.unmarshalArrays resp.Body with
      | none => .fatal
      | some data => .ok (data.ArrayInfo.map fun a => a.SymmetrixID)

/-- The loop `for _, a := range arrays` of `NewPowerMax`: true when it reaches
`return &pm`, false when it runs to its end. -/
def managed (symmid : String) : List String → Bool
  | [] => false
  | a :: rest => if symmid = a then true else managed symmid rest

/-- Lines 50-55 of `NewPowerMax`: the object filled from the arguments. -/
def initPowerMax (address user password symmid : String) : PowerMax :=
  { APIEndPoint := "https://" ++ address ++ ":8443/univmax/restapi",
    User := user, Password := password, SymmID := symmid }

/-- Function `NewPowerMax`: the client object, or `Logger.Fatalf` when no array
is listed or the configured one is not among those listed. -/
def NewPowerMax (senv : StartEnv) (address user password symmid : String) : Outcome PowerMax :=
  let pm := initPowerMax address user password symmid
  (pm.ListArrays senv).bind fun arrays =>
    if arrays.length = 0 then .fatal
    else if managed symmid arrays = true then .ok pm
    else .fatal

/-! ## `common.go` -/

/-- Function `CreateTimeRange`: from `seconds` ago to now, in epoch milliseconds. -/
def CreateTimeRange (now seconds : Int) : Int × Int :=
  ((now - seconds) * 1000, now * 1000)

/-! ## `exporter.go` -/

/-- The table `labelm`; an absent key reads as the nil slice. -/
def labelm (resType : String) : List String :=
  if resType = "array" then ["symmid", "type"]
  else if resType = "cache" then ["symmid", "type", "name"]
  else if resType = "feport" then ["symmid", "type", "director", "port"]
  else if resType = "beport" then ["symmid", "type", "director", "port"]
  else if resType = "storagegroup" then ["symmid", "type", "name"]
  else []

/-- A monitored instance: `map[string]string`. -/
abbrev Resource := List (String × String)

/-- The part of a `prometheus.Desc` that matters here: name, help text and label names. -/
structure Desc where
  fqName : String
  help : String
  variableLabels : List String
  deriving DecidableEq, Repr

/-- A data point sent on the channel: a constant gauge with its label values. -/
structure Metric where
  desc : Desc
  value : Float64
  labelValues : List String
  deriving DecidableEq, Repr

/-- Go struct `Exporter`. -/
structure Exporter where
  resType : String
  resources : List Resource
  descs : List (String × Desc)
  pm : PowerMax
  deriving DecidableEq, Repr

/-- The call `strings.ReplaceAll(name, "_", " ")`: every underscore becomes a space. -/
def underscoresToSpaces (name : String) : String :=
  String.mk (name.data.map fun c => if c = '_' then ' ' else c)

/-- Method `Exporter.Describe`: one descriptor per metric name of the type,
stored in `e.descs` and sent on the channel. -/
def Describe (e : Exporter) (env : Env) : Exporter × List Desc :=
  (env.Metrics e.resType).foldl
    (fun (acc : Exporter × List Desc) name =>
      let desc : Desc :=
        { fqName := name, help := underscoresToSpaces name, variableLabels := labelm e.resType }
      ({ acc.1 with descs := mapSet acc.1.descs name desc }, acc.2 ++ [desc]))
    (e, [])

/-- Map read `e.descs[k]`: nil when `k` has no descriptor. -/
def descOf (descs : List (String × Desc)) (k : String) : Option Desc :=
  (descs.find? fun kd => kd.1 = k).map Prod.snd

/-- The prometheus function `MustNewConstMetric` for a gauge: it panics on a
nil descriptor and when the number of label values differs from the
descriptor's number of label names. -/
def MustNewConstMetric (desc : Option Desc) (value : Float64) (labelValues : List String) :
    Outcome Metric :=
  match desc with
  | none => .panic
  | some d =>
    if labelValues.length ≠ d.variableLabels.length then .panic
    else .ok { desc := d, value := value, labelValues := labelValues }

/-- Tail shared by the four goroutine bodies of `Collect`: nothing is sent for
a nil or empty sample, otherwise one data point per entry of the sample. -/
def emit (descs : List (String × Desc)) (metrics : Option Sample) (labelValues : List String) :
    Outcome (List Metric) :=
  match metrics with
  | none => .ok []
  | some m =>
    if m.length = 0 then .ok []
    else Outcome.mapM (fun kv => MustNewConstMetric (descOf descs kv.1) kv.2 labelValues) m

/-- Go slice expression `s[:2]`: panics on a string shorter than two bytes.
The prefix is taken by characters, which are bytes for the type names. -/
def firstTwo (s : String) : Outcome String :=
  if s.utf8ByteSize < 2 then .panic else .ok (String.mk (s.data.take 2))

/-- Goroutine of `Collect` for `array`. -/
def arrayUnit (e : Exporter) (env : Env) (st et : Int) (symmid resType : String) :
    Outcome (List Metric) :=
  (e.pm.GetLatestArrayMetrics env st et).bind fun metrics =>
    emit e.descs metrics [symmid, resType]

/-- Goroutine of `Collect` for `cache`. -/
def cacheUnit (e : Exporter) (env : Env) (st et : Int) (symmid resType name : String) :
    Outcome (List Metric) :=
  (e.pm.GetLatestCacheMetrics env st et name).bind fun metrics =>
    emit e.descs metrics [symmid, resType, name]

/-- Goroutine of `Collect` for `feport` and `beport`. -/
def portUnit (e : Exporter) (env : Env) (st et : Int) (symmid resType director port : String) :
    Outcome (List Metric) :=
  (firstTwo resType).bind fun dirType =>
    (e.pm.GetLatestPortMetrics env st et dirType director port).bind fun metrics =>
      emit e.descs metrics [symmid, resType, director, port]

/-- Goroutine of `Collect` for `storagegroup`. -/
def storageGroupUnit (e : Exporter) (env : Env) (st et : Int) (symmid resType name : String) :
    Outcome (List Metric) :=
  (e.pm.GetLatestStorageGroupMetrics env st et name).bind fun metrics =>
    emit e.descs metrics [symmid, resType, name]

/-- Body of the loop of `Collect` for one instance: the goroutines its four `if`
statements start, each with the result of running it. -/
def launch (e : Exporter) (env : Env) (st et : Int) (res : Resource) :
    List (Outcome (List Metric)) :=
  (if e.resType = "array" then
    [arrayUnit e env st et (mapGet res "symmid") (mapGet res "type")] else [])
  ++ (if e.resType = "cache" then
    [cacheUnit e env st et (mapGet res "symmid") (mapGet res "type") (mapGet res "name")]
    else [])
  ++ (if e.resType = "feport" ∨ e.resType = "beport" then
    [portUnit e env st et (mapGet res "symmid") (mapGet res "type") (mapGet res "director")
      (mapGet res "port")] else [])
  ++ (if e.resType = "storagegroup" then
    [storageGroupUnit e env st et (mapGet res "symmid") (mapGet res "type") (mapGet res "name")]
    else [])

/-- Function `listResources`. -/
def listResources (pm : PowerMax) (env : Env) (resType : String) : Outcome (List Resource) :=
  let ret0 : List Resource := []
  let ret1 : List Resource :=
    if resType = "array" then [[("symmid", pm.SymmID), ("type", resType)]] else ret0
  (if resType = "cache" then
    (pm.ListCachePartitionIDs env).bind fun cids =>
      .ok (ret1 ++ cids.map fun id => [("symmid", pm.SymmID), ("type", resType), ("name", id)])
   else .ok ret1).bind fun ret2 =>
  (if resType = "feport" ∨ resType = "beport" then
    (firstTwo resType).bind fun dtype =>
      (pm.ListDirectorIDs env dtype).bind fun dirs =>
        (Outcome.mapM (fun dir =>
          (pm.ListPortIDs env dtype dir).bind fun ports =>
            .ok (ports.map fun port =>
              [("symmid", pm.SymmID), ("type", resType), ("director", dir), ("port", port)]))
          dirs).bind fun found => .ok (ret2 ++ found.flatten)
   else .ok ret2).bind fun ret3 =>
  if resType = "storagegroup" then
    (pm.ListStorageGroupIDs env).bind fun sgs =>
      .ok (ret3 ++ sgs.map fun sg => [("symmid", pm.SymmID), ("type", resType), ("name", sg)])
  else .ok ret3

/-- Lines 142-148 of `Collect`: the storage-group list is replaced by a
non-empty re-listing when `Config.Exporter.Update` is set. -/
def refresh (e : Exporter) (env : Env) : Outcome Exporter :=
  if e.resType = "storagegroup" ∧ env.Update = true then
    (listResources e.pm env e.resType).bind fun sgs =>
      if 0 < sgs.length then .ok { e with resources := sgs } else .ok e
  else .ok e

/-- Method `Exporter.Collect`, with the goroutines run one after the other in
list order (one of the schedules the run time may pick). The result is the
data points sent on the channel and the exporter after the cycle. `wg.Wait`
returns once as many goroutines have called `wg.Done` as `wg.Add` counted:
with fewer goroutines started than counted it never returns, with more the
counter goes negative and `Done` panics. -/
def Collect (e : Exporter) (env : Env) : Outcome (List Metric × Exporter) :=
  let range := CreateTimeRange env.now 600
  let units := (e.resources.map (launch e env range.1 range.2)).flatten
  (Outcome.mapM id units).bind fun sent =>
    if units.length < e.resources.length then .blocked
    else if e.resources.length < units.length then .panic
    else (refresh e env).bind fun e1 => .ok (sent.flatten, e1)

/-- Function `New`: `Logger.Fatalf` on an empty listing. -/
def New (pm : PowerMax) (env : Env) (resType : String) : Outcome Exporter :=
  (listResources pm env resType).bind fun resources =>
    if resources.length = 0 then .fatal
    else .ok { resType := resType, resources := resources, descs := [], pm := pm }

/-- The goroutines one `Collect` cycle starts, in the order of the tracked list. -/
def unitsOf (e : Exporter) (env : Env) : List (Outcome (List Metric)) :=
  (e.resources.map
    (launch e env (CreateTimeRange env.now 600).1 (CreateTimeRange env.now 600).2)).flatten

/-- The five resource types served. -/
def servedType (resType : String) : Prop :=
  resType = "array" ∨ resType = "cache" ∨ resType = "feport" ∨ resType = "beport" ∨
    resType = "storagegroup"

/-- A fetch result a goroutine can send without panicking: no sample, or a
sample each of whose metric names has a descriptor with as many label names
as the goroutine passes label values. -/
def sendable (descs : List (String × Desc)) (labelValues : List String)
    (metrics : Option Sample) : Prop :=
  ∀ m, metrics = some m → ∀ kv ∈ m, ∃ d, descOf descs kv.1 = some d ∧
    d.variableLabels.length = labelValues.length

/-- Successive scrapes: one `Collect` cycle per entry of `envs`, each under the
settings and upstream replies of its time, the exporter carried along. -/
def cycles (e : Exporter) : List Env → Outcome Exporter
  | [] => .ok e
  | env :: rest => (Collect e env).bind fun r => cycles r.2 rest

end PowerMaxExporter

namespace PowerMaxExporter
open Outcome

/-! ## Concrete inputs -/

/-- Body of the metrics response of the specification's scenario. -/
def scenarioBody : String :=
  "\x7b\"resultList\":\x7b\"result\":[\x7b\"timestamp\":1,\"hitRatio\":80\x7d,\x7b\"timestamp\":2,\"hitRatio\":85\x7d]\x7d,\"count\":2\x7d"

/-- What `json.Unmarshal` stores in a `baseResult` for `scenarioBody`. -/
def scenarioEnvelope : baseResult :=
  { ResultList := { Result := [.map [("timestamp", .float64 1), ("hitRatio", .float64 80)],
                               .map [("timestamp", .float64 2), ("hitRatio", .float64 85)]],
                    From := 0, To := 0 },
    ID := "", Count := 2, ExpirationTime := 0, MaxPageSize := 0 }

/-- A decoder that knows the scenario body and rejects every other body. -/
def scenarioUnmarshal (body : String) : Option baseResult :=
  if body = scenarioBody then some scenarioEnvelope else none

/-- An envelope announcing one record while its result list is empty, as
decoded from the body `\x7b"count":1\x7d`. -/
def shortEnvelope : baseResult :=
  { ResultList := { Result := [], From := 0, To := 0 },
    ID := "", Count := 1, ExpirationTime := 0, MaxPageSize := 0 }

/-- Body of a metrics response whose one record holds the integer 42. -/
def integerBody : String :=
  "\x7b\"resultList\":\x7b\"result\":[\x7b\"timestamp\":1,\"hostIOs\":42\x7d]\x7d,\"count\":1\x7d"

/-- What `json.Unmarshal` stores in a `baseResult` for `integerBody`: the
number 42 arrives as a `float64`. -/
def integerEnvelope : baseResult :=
  { ResultList := { Result := [.map [("timestamp", .float64 1), ("hostIOs", .float64 42)]],
                    From := 0, To := 0 },
    ID := "", Count := 1, ExpirationTime := 0, MaxPageSize := 0 }

/-- A decoder that knows `integerBody` and rejects every other body. -/
def integerUnmarshal (body : String) : Option baseResult :=
  if body = integerBody then some integerEnvelope else none

/-- Body announcing one record without holding any. -/
def shortBody : String := "\x7b\"count\":1\x7d"

/-- The configured client: array `000197900123` behind one Unisphere. -/
def unisphere : PowerMax :=
  { APIEndPoint := "https://unisphere:8443/univmax/restapi", User := "smc", Password := "smc",
    SymmID := "000197900123" }

/-- Settings in which the upstream answers every request with status `status`
and the scenario body, decoded by `scenarioUnmarshal`; the cache partition
type has the one metric `hitRatio`. -/
def scenarioEnv (status : Int) : Env :=
  { Metrics := fun resType => if resType = "cache" then ["hitRatio"] else [],
    unmarshalResult := scenarioUnmarshal,
    unmarshalObject := fun _ => none,
    Update := false,
    now := 1600000000,
    http := fun _ _ => (some ⟨status, scenarioBody⟩, none) }

/-- An exporter for cache partitions tracking the partition `CP1`, after `Describe`. -/
def cacheExporter : Exporter :=
  { resType := "cache",
    resources := [[("symmid", "000197900123"), ("type", "cache"), ("name", "CP1")]],
    descs := [("hitRatio", ⟨"hitRatio", "hitRatio", ["symmid", "type", "name"]⟩)],
    pm := unisphere }

/-- An exporter for cache partitions tracking `CP1` and `CP2`, after `Describe`. -/
def twoCacheExporter : Exporter :=
  { resType := "cache",
    resources := [[("symmid", "000197900123"), ("type", "cache"), ("name", "CP1")],
                  [("symmid", "000197900123"), ("type", "cache"), ("name", "CP2")]],
    descs := [("hitRatio", ⟨"hitRatio", "hitRatio", ["symmid", "type", "name"]⟩)],
    pm := unisphere }

/-- An exporter for cache partitions tracking `CP2` alone, after `Describe`. -/
def secondCacheExporter : Exporter :=
  { resType := "cache",
    resources := [[("symmid", "000197900123"), ("type", "cache"), ("name", "CP2")]],
    descs := [("hitRatio", ⟨"hitRatio", "hitRatio", ["symmid", "type", "name"]⟩)],
    pm := unisphere }

/-- The data point for the scenario body answered for partition `CP2`. -/
def secondPoint : Metric :=
  { desc := ⟨"hitRatio", "hitRatio", ["symmid", "type", "name"]⟩, value := 85,
    labelValues := ["000197900123", "cache", "CP2"] }

/-- Settings in which the metrics fetch for partition `CP1` is answered with
`first` and every other request with status 200 and the scenario body; the
decoder knows the scenario body and `shortBody`. -/
def splitEnv (first : Response) : Env :=
  { Metrics := fun resType => if resType = "cache" then ["hitRatio"] else [],
    unmarshalResult := fun body =>
      if body = scenarioBody then some scenarioEnvelope
      else if body = shortBody then some shortEnvelope
      else none,
    unmarshalObject := fun _ => none,
    Update := false,
    now := 1600000000,
    http := fun _ body =>
      match body with
      | .metrics _ keyFields =>
        if mapGet keyFields "cachePartitionId" = "CP1" then (some first, none)
        else (some ⟨200, scenarioBody⟩, none)
      | .keys _ => (some ⟨200, scenarioBody⟩, none) }

/-- The data point of `cacheExporter` for the scenario: `hitRatio` 85 of partition `CP1`. -/
def scenarioPoint : Metric :=
  { desc := ⟨"hitRatio", "hitRatio", ["symmid", "type", "name"]⟩, value := 85,
    labelValues := ["000197900123", "cache", "CP1"] }

/-- Settings in which the upstream gives `reply` to every request and the
object decoder maps `body` to `decoded` and rejects every other body. -/
def keysEnv (reply : Reply) (body : String) (decoded : List (String × GoValue)) : Env :=
  { Metrics := fun _ => [],
    unmarshalResult := fun _ => none,
    unmarshalObject := fun b => if b = body then some decoded else none,
    Update := true,
    now := 1600000000,
    http := fun _ _ => reply }

/-- The reply of a transport that could not connect: an empty response and an error. -/
def refused : Reply := (some ⟨0, ""⟩, some "dial tcp: connection refused")

/-- Body of a storage-group key listing with the groups `sg1` and `sg2`. -/
def groupsBody : String :=
  "\x7b\"storageGroupInfo\":[\x7b\"storageGroupId\":\"sg1\"\x7d,\x7b\"storageGroupId\":\"sg2\"\x7d]\x7d"

/-- What `json.Unmarshal` stores for `groupsBody`. -/
def groupsObject : List (String × GoValue) :=
  [("storageGroupInfo",
    .slice [.map [("storageGroupId", .string "sg1")], .map [("storageGroupId", .string "sg2")]])]

/-- An exporter for storage groups tracking the group `sg1`. -/
def groupExporter : Exporter :=
  { resType := "storagegroup",
    resources := [[("symmid", "000197900123"), ("type", "storagegroup"), ("name", "sg1")]],
    descs := [],
    pm := unisphere }

/-- The exporter `groupExporter` once its list has been replaced by `sg1`, `sg2`. -/
def regroupedExporter : Exporter :=
  { resType := "storagegroup",
    resources := [[("symmid", "000197900123"), ("type", "storagegroup"), ("name", "sg1")],
                  [("symmid", "000197900123"), ("type", "storagegroup"), ("name", "sg2")]],
    descs := [],
    pm := unisphere }

/-- Body of a storage-group key listing without any group. -/
def noGroupsBody : String := "\x7b\"storageGroupInfo\":[]\x7d"

/-- What `json.Unmarshal` stores for `noGroupsBody`. -/
def noGroupsObject : List (String × GoValue) := [("storageGroupInfo", .slice [])]

/-- Refresh enabled; the upstream lists the groups `sg1` and `sg2`. -/
def groupsEnv : Env := keysEnv (some ⟨200, groupsBody⟩, none) groupsBody groupsObject

/-- Refresh enabled; the upstream lists no group. -/
def noGroupsEnv : Env := keysEnv (some ⟨200, noGroupsBody⟩, none) noGroupsBody noGroupsObject

/-- Body of the key listing of the specification's scenario. -/
def keysBody : String :=
  "\x7b\"cachePartitionInfo\":[\x7b\"cachePartitionId\":\"CP1\"\x7d,\x7b\"cachePartitionId\":\"CP2\"\x7d]\x7d"

/-- What `json.Unmarshal` stores in a `map[string]interface{}` for `keysBody`. -/
def keysObject : List (String × GoValue) :=
  [("cachePartitionInfo",
    .slice [.map [("cachePartitionId", .string "CP1")], .map [("cachePartitionId", .string "CP2")]])]

/-- A body with one top-level key whose value is a string, not an array. -/
def messageBody : String := "\x7b\"message\":\"unexpected\"\x7d"

/-- What `json.Unmarshal` stores for `messageBody`. -/
def messageObject : List (String × GoValue) := [("message", .string "unexpected")]

/-- A body with one top-level key whose array holds a string, not an object. -/
def flatBody : String := "\x7b\"storageGroupInfo\":[\"sg1\"]\x7d"

/-- What `json.Unmarshal` stores for `flatBody`. -/
def flatObject : List (String × GoValue) := [("storageGroupInfo", .slice [.string "sg1"])]

/-- A body with two top-level keys. -/
def twoKeyBody : String := "\x7b\"a\":[],\"b\":[]\x7d"

/-- What `json.Unmarshal` stores for `twoKeyBody`. -/
def twoKeyObject : List (String × GoValue) := [("a", .slice []), ("b", .slice [])]

/-- Startup settings in which the upstream answers the array listing with
status 200 and a body that decodes to the arrays `ids`. -/
def arraysEnv (ids : List String) : StartEnv :=
  { httpGet := fun _ _ => (some ⟨200, "arrayInfo"⟩, none),
    unmarshalArrays := fun _ =>
      some ⟨ids.map fun id => ⟨id, 1590000000000, 1600000000000⟩⟩ }

/-! ## Association lists as Go maps -/

theorem cacheExporter_described :
    (Describe { cacheExporter with descs := [] } (scenarioEnv 200)).1 = cacheExporter := by
  decide


theorem mem_keys_mapSet {β : Type} (m : List (String × β)) (k : String) (v : β) (k' : String) :
    k' ∈ (mapSet m k v).map Prod.fst ↔ k' = k ∨ k' ∈ m.map Prod.fst := by
  induction m with
  | nil => simp [mapSet]
  | cons hd tl ih =>
    obtain ⟨a, b⟩ := hd
    by_cases hak : a = k
    · subst hak
      simp [mapSet]
    · simp only [mapSet, hak, if_false, List.map_cons, List.mem_cons, ih]
      tauto

theorem nodup_keys_mapSet {β : Type} (m : List (String × β)) (k : String) (v : β)
    (h : (m.map Prod.fst).Nodup) : ((mapSet m k v).map Prod.fst).Nodup := by
  induction m with
  | nil => simp [mapSet]
  | cons hd tl ih =>
    obtain ⟨a, b⟩ := hd
    simp only [List.map_cons, List.nodup_cons] at h
    by_cases hak : a = k
    · subst hak
      simpa [mapSet] using h
    · simp only [mapSet, hak, if_false, List.map_cons, List.nodup_cons]
      refine ⟨?_, ih h.2⟩
      rw [mem_keys_mapSet]
      rintro (h1 | h1)
      · exact hak h1
      · exact h.1 h1

/-! ## The latest record -/

theorem mem_keys_extractField (ret : Sample) (kv : String × GoValue) (k : String) :
    k ∈ (extractField ret kv).map Prod.fst ↔
      k ∈ ret.map Prod.fst ∨ (k = kv.1 ∧ k ≠ "timestamp" ∧ kv.2.isNumeric = true) := by
  obtain ⟨a, v⟩ := kv
  by_cases hts : a = "timestamp"
  · subst hts
    simp only [extractField, if_true]
    constructor
    · intro h
      exact Or.inl h
    · rintro (h | ⟨h1, h2, -⟩)
      · exact h
      · exact absurd h1 h2
  · have key : ∀ x : Float64, k ∈ (mapSet ret a x).map Prod.fst ↔
        k ∈ ret.map Prod.fst ∨ (k = a ∧ k ≠ "timestamp" ∧ True) := by
      intro x
      rw [mem_keys_mapSet]
      constructor
      · rintro (h | h)
        · exact Or.inr ⟨h, h ▸ hts, trivial⟩
        · exact Or.inl h
      · rintro (h | ⟨h, -, -⟩)
        · exact Or.inr h
        · exact Or.inl h
    cases v <;>
      simp only [extractField, hts, if_false, GoValue.isNumeric, key, eq_self_iff_true,
        Bool.false_eq_true, and_false, or_false]

theorem nodup_keys_extractField (ret : Sample) (kv : String × GoValue)
    (h : (ret.map Prod.fst).Nodup) : ((extractField ret kv).map Prod.fst).Nodup := by
  obtain ⟨a, v⟩ := kv
  by_cases hts : a = "timestamp"
  · simpa only [extractField, hts, if_true] using h
  · cases v <;> simp only [extractField, hts, if_false] <;>
      first | exact h | exact nodup_keys_mapSet _ _ _ h

theorem mem_keys_foldl_extractField (latest : List (String × GoValue)) (acc : Sample)
    (k : String) :
    k ∈ (latest.foldl extractField acc).map Prod.fst ↔
      k ∈ acc.map Prod.fst ∨
        (k ≠ "timestamp" ∧ ∃ v, (k, v) ∈ latest ∧ v.isNumeric = true) := by
  induction latest generalizing acc with
  | nil => simp
  | cons hd tl ih =>
    obtain ⟨a, v⟩ := hd
    rw [List.foldl_cons, ih, mem_keys_extractField]
    constructor
    · rintro ((h | ⟨h1, h2, h3⟩) | ⟨h1, w, h2, h3⟩)
      · exact Or.inl h
      · exact Or.inr ⟨h2, v, by simp [h1], h3⟩
      · exact Or.inr ⟨h1, w, List.mem_cons_of_mem _ h2, h3⟩
    · rintro (h | ⟨h1, w, h2, h3⟩)
      · exact Or.inl (Or.inl h)
      · rcases List.mem_cons.mp h2 with h4 | h4
        · have hk : k = a := congrArg Prod.fst h4
          have hw : w = v := congrArg Prod.snd h4
          exact Or.inl (Or.inr ⟨hk, h1, hw ▸ h3⟩)
        · exact Or.inr ⟨h1, w, h4, h3⟩

theorem nodup_keys_foldl_extractField (latest : List (String × GoValue)) (acc : Sample)
    (h : (acc.map Prod.fst).Nodup) : ((latest.foldl extractField acc).map Prod.fst).Nodup := by
  induction latest generalizing acc with
  | nil => simpa using h
  | cons hd tl ih => exact ih _ (nodup_keys_extractField acc hd h)

/-- Every way `extractLatestMetrics` can return a sample: the envelope decoded
and the record at index `Count - 1` is an object. -/
theorem extractLatestMetrics_eq_some (unmarshal : String → Option baseResult) (resp : Response)
    (sample : Sample) (h : extractLatestMetrics unmarshal (some resp) = .ok (some sample)) :
    ∃ data latest, unmarshal resp.Body = some data ∧
      sliceIndex data.ResultList.Result (data.Count - 1) = some (.map latest) ∧
      sample = latest.foldl extractField [] := by
  unfold extractLatestMetrics at h
  simp only at h
  by_cases h1 : resp.StatusCode = httpNoContent
  · simp [h1] at h
  by_cases h2 : resp.StatusCode = httpPartialContent
  · simp [h2] at h
  simp only [h1, h2, if_false] at h
  cases hdec : unmarshal resp.Body with
  | none => simp [hdec] at h
  | some data =>
    simp only [hdec] at h
    by_cases h3 : data.Count = 0
    · simp [h3] at h
    simp only [h3, if_false] at h
    cases hidx : sliceIndex data.ResultList.Result (data.Count - 1) with
    | none => simp [hidx] at h
    | some r =>
      cases r with
      | map latest =>
        simp only [hidx] at h
        refine ⟨data, latest, rfl, hidx, ?_⟩
        simpa using h.symm
      | _ => simp [hidx] at h

/-- C1 (amended): for a response whose status is neither 204 nor 206 and whose
body decodes to an envelope with `count = N > 0`, where `resultList.result`
has a record at index `N - 1` and that record is an object, `extractLatestMetrics`
returns the sample computed from exactly that record. -/
theorem extractLatestMetrics_uses_last_record (unmarshal : String → Option baseResult)
    (resp : Response) (data : baseResult) (N : Nat) (latest : List (String × GoValue))
    (h204 : resp.StatusCode ≠ 204) (h206 : resp.StatusCode ≠ 206)
    (hdec : unmarshal resp.Body = some data) (hcount : data.Count = (N : Int)) (hpos : 0 < N)
    (hrec : data.ResultList.Result.get? (N - 1) = some (.map latest)) :
    extractLatestMetrics unmarshal (some resp) = .ok (some (latest.foldl extractField [])) := by
  have hne : data.Count ≠ 0 := by omega
  have hidx : sliceIndex data.ResultList.Result (data.Count - 1) = some (.map latest) := by
    have h1 : ¬ (data.Count - 1 < 0) := by omega
    have h2 : (data.Count - 1).toNat = N - 1 := by omega
    simp only [sliceIndex, h1, if_false, h2, hrec]
  simp only [extractLatestMetrics, httpNoContent, httpPartialContent, h204, h206, if_false,
    hdec, hne, hidx]

/-- C1 witness: the scenario of the specification, whose last record gives `hitRatio` 85. -/
theorem extractLatestMetrics_uses_last_record_witness :
    extractLatestMetrics scenarioUnmarshal (some ⟨200, scenarioBody⟩)
      = .ok (some [("hitRatio", 85)]) :=
  extractLatestMetrics_uses_last_record scenarioUnmarshal ⟨200, scenarioBody⟩ scenarioEnvelope 2
    [("timestamp", .float64 2), ("hitRatio", .float64 85)]
    (by decide) (by decide) rfl rfl (by decide) rfl

/-- C1 counterexample: status 200 and an envelope with `count = 1 > 0` whose
result list is empty; there is no record at index 0 and the call panics
instead of returning a sample. -/
theorem extractLatestMetrics_count_beyond_result_panics :
    (200 : Int) ≠ 204 ∧ (200 : Int) ≠ 206 ∧ 0 < shortEnvelope.Count ∧
      extractLatestMetrics (fun _ => some shortEnvelope) (some ⟨200, "\x7b\"count\":1\x7d"⟩)
        = .panic := by
  decide

/-- C2: whenever `extractLatestMetrics` returns a sample, its keys are distinct
and are exactly the field names of the selected record, other than
`timestamp`, that carry a numeric value; `timestamp` and the fields of every
other kind are dropped. -/
theorem extractLatestMetrics_keys (unmarshal : String → Option baseResult) (resp : Response)
    (sample : Sample) (h : extractLatestMetrics unmarshal (some resp) = .ok (some sample)) :
    ∃ data latest, unmarshal resp.Body = some data ∧
      sliceIndex data.ResultList.Result (data.Count - 1) = some (.map latest) ∧
      (sample.map Prod.fst).Nodup ∧
      ∀ k, k ∈ sample.map Prod.fst ↔
        (k ≠ "timestamp" ∧ ∃ v, (k, v) ∈ latest ∧ v.isNumeric = true) := by
  obtain ⟨data, latest, hdec, hidx, hs⟩ := extractLatestMetrics_eq_some unmarshal resp sample h
  refine ⟨data, latest, hdec, hidx, ?_, ?_⟩
  · rw [hs]
    exact nodup_keys_foldl_extractField latest [] (by simp)
  · intro k
    rw [hs, mem_keys_foldl_extractField]
    simp

/-- C2 witness: in the scenario the sample has the single key `hitRatio`. -/
theorem extractLatestMetrics_keys_witness :
    extractLatestMetrics scenarioUnmarshal (some ⟨200, scenarioBody⟩)
        = .ok (some [("hitRatio", 85)]) ∧
      ∃ data latest, scenarioUnmarshal scenarioBody = some data ∧
        sliceIndex data.ResultList.Result (data.Count - 1) = some (.map latest) ∧
        (([("hitRatio", 85)] : Sample).map Prod.fst).Nodup ∧
        ∀ k, k ∈ ([("hitRatio", 85)] : Sample).map Prod.fst ↔
          (k ≠ "timestamp" ∧ ∃ v, (k, v) ∈ latest ∧ v.isNumeric = true) :=
  ⟨by decide,
    extractLatestMetrics_keys scenarioUnmarshal ⟨200, scenarioBody⟩ [("hitRatio", 85)]
      (by decide)⟩

/-! ## No content, partial content -/

theorem extractLatestMetrics_noContent (unmarshal : String → Option baseResult)
    (resp : Response) (h : resp.StatusCode = 204 ∨ resp.StatusCode = 206) :
    extractLatestMetrics unmarshal (some resp) = .ok none := by
  rcases h with h | h <;> simp [extractLatestMetrics, httpNoContent, httpPartialContent, h]

/-- C3: a response with status 204 or 206 gives no sample, whatever its body
and whatever the decoder would make of it; a goroutine of `Collect` that is
handed no sample sends no data point and returns normally, and so does each
of the four goroutines when the upstream answers its fetch with 204 or 206. -/
theorem noContent_no_sample_no_points :
    (∀ (unmarshal : String → Option baseResult) (resp : Response),
      resp.StatusCode = 204 ∨ resp.StatusCode = 206 →
        extractLatestMetrics unmarshal (some resp) = .ok none) ∧
    (∀ (descs : List (String × Desc)) (labelValues : List String),
      emit descs none labelValues = .ok []) ∧
    (∀ (e : Exporter) (env : Env) (st et : Int),
      (∀ url body, ∃ r, (env.http url body).1 = some r ∧
        (r.StatusCode = 204 ∨ r.StatusCode = 206)) →
      (∀ symmid resType, arrayUnit e env st et symmid resType = .ok []) ∧
      (∀ symmid resType name, cacheUnit e env st et symmid resType name = .ok []) ∧
      (∀ symmid resType director port, resType = "feport" ∨ resType = "beport" →
        portUnit e env st et symmid resType director port = .ok []) ∧
      (∀ symmid resType name, storageGroupUnit e env st et symmid resType name = .ok [])) := by
  refine ⟨extractLatestMetrics_noContent, fun _ _ => rfl, ?_⟩
  intro e env st et hup
  have key : ∀ url body,
      extractLatestMetrics env.unmarshalResult (env.http url body).1 = .ok none := by
    intro url body
    obtain ⟨r, hr, hs⟩ := hup url body
    rw [hr]
    exact extractLatestMetrics_noContent _ r hs
  refine ⟨?_, ?_, ?_, ?_⟩
  · intro symmid resType
    simp [arrayUnit, PowerMax.GetLatestArrayMetrics, PowerMax.Post, key, Outcome.bind, emit]
  · intro symmid resType name
    simp [cacheUnit, PowerMax.GetLatestCacheMetrics, PowerMax.Post, key, Outcome.bind, emit]
  · intro symmid resType director port hrt
    rcases hrt with h | h <;> subst h <;>
      simp [portUnit, firstTwo, String.utf8ByteSize, String.utf8ByteSize.go, Char.utf8Size,
        PowerMax.GetLatestPortMetrics, portMetricsURI, PowerMax.Post, key, Outcome.bind, emit]
  · intro symmid resType name
    simp [storageGroupUnit, PowerMax.GetLatestStorageGroupMetrics, PowerMax.Post, key,
      Outcome.bind, emit]

/-- C3 witness: status 204 with the scenario body gives no sample, and the
cache goroutine of an exporter whose upstream answers 204 sends nothing. -/
theorem noContent_no_sample_no_points_witness :
    extractLatestMetrics scenarioUnmarshal (some ⟨204, scenarioBody⟩) = .ok none ∧
      cacheUnit cacheExporter (scenarioEnv 204) 1599999400000 1600000000000
        "000197900123" "cache" "CP1" = .ok [] :=
  ⟨noContent_no_sample_no_points.1 scenarioUnmarshal ⟨204, scenarioBody⟩ (Or.inl rfl),
    (noContent_no_sample_no_points.2.2 cacheExporter (scenarioEnv 204)
      1599999400000 1600000000000 (fun _ _ => ⟨⟨204, scenarioBody⟩, rfl, Or.inl rfl⟩)).2.1
      "000197900123" "cache" "CP1"⟩

/-! ## Error statuses on the metrics path -/

/-- C4 (failing input): the upstream answers a metrics fetch with status 500
and a well-formed envelope. Each of the four `GetLatest...Metrics` methods
still returns the sample of the last record, and a `Collect` cycle of the
cache exporter sends a data point for the instance. -/
theorem getLatestMetrics_error_status_yields_sample :
    unisphere.GetLatestArrayMetrics (scenarioEnv 500) 1599999400000 1600000000000
        = .ok (some [("hitRatio", 85)]) ∧
      unisphere.GetLatestCacheMetrics (scenarioEnv 500) 1599999400000 1600000000000 "CP1"
        = .ok (some [("hitRatio", 85)]) ∧
      unisphere.GetLatestPortMetrics (scenarioEnv 500) 1599999400000 1600000000000
        "fe" "FA-1D" "4" = .ok (some [("hitRatio", 85)]) ∧
      unisphere.GetLatestStorageGroupMetrics (scenarioEnv 500) 1599999400000 1600000000000
        "sg1" = .ok (some [("hitRatio", 85)]) ∧
      Collect cacheExporter (scenarioEnv 500) = .ok ([scenarioPoint], cacheExporter) := by
  decide

/-! ## Key listings -/

theorem mapM_entryIDs_objects (objs : List (List (String × GoValue))) :
    Outcome.mapM entryIDs (objs.map GoValue.map) = .ok (objs.map stringFields) := by
  induction objs with
  | nil => rfl
  | cons o os ih => simp [Outcome.mapM, entryIDs, ih, Outcome.bind]

theorem flatten_map_singleton (ids : List String) :
    (ids.map fun id => [id]).flatten = ids := by
  induction ids with
  | nil => rfl
  | cons a as ih => simp [ih]

/-- C5: when the key listing is answered without a transport error and with a
status that is not an error, and the body decodes to an object with exactly
one top-level key whose value is an array of objects, `listResourceIDs`
returns the string-valued field values of those objects, object after object
in array order; when each object has one string-valued field this is the
list of those values in array order. -/
theorem listResourceIDs_single_key (pm : PowerMax) (env : Env) (uri : String)
    (payload : List (String × String)) (resp : Response) (key : String)
    (objs : List (List (String × GoValue)))
    (hpost : pm.Post env uri (.keys payload) = (some resp, none))
    (hok : resp.IsError = false)
    (hdec : env.unmarshalObject resp.Body = some [(key, .slice (objs.map GoValue.map))]) :
    pm.listResourceIDs env uri payload = .ok (objs.map stringFields).flatten ∧
      ∀ ids : List String, objs.map stringFields = ids.map (fun id => [id]) →
        pm.listResourceIDs env uri payload = .ok ids := by
  have main : pm.listResourceIDs env uri payload = .ok (objs.map stringFields).flatten := by
    simp [PowerMax.listResourceIDs, hpost, hok, hdec, Outcome.mapM, infoIDs,
      mapM_entryIDs_objects, Outcome.bind]
  refine ⟨main, ?_⟩
  intro ids hids
  rw [main, hids, flatten_map_singleton]

/-- C5 witness: the cache-key scenario yields `CP1`, `CP2`, and `listResources`
turns them into the two cache instances. -/
theorem listResourceIDs_single_key_witness :
    unisphere.ListCachePartitionIDs (keysEnv (some ⟨200, keysBody⟩, none) keysBody keysObject)
        = .ok ["CP1", "CP2"] ∧
      listResources unisphere (keysEnv (some ⟨200, keysBody⟩, none) keysBody keysObject) "cache"
        = .ok [[("symmid", "000197900123"), ("type", "cache"), ("name", "CP1")],
               [("symmid", "000197900123"), ("type", "cache"), ("name", "CP2")]] :=
  ⟨(listResourceIDs_single_key unisphere (keysEnv (some ⟨200, keysBody⟩, none) keysBody keysObject)
      "/performance/CachePartition/keys" [("symmetrixId", "000197900123")]
      ⟨200, keysBody⟩ "cachePartitionInfo"
      [[("cachePartitionId", .string "CP1")], [("cachePartitionId", .string "CP2")]]
      rfl (by decide) rfl).2 ["CP1", "CP2"] rfl,
    by decide⟩

/-- C6 (amended): `listResourceIDs` returns an empty result when the transport
reports an error, when the status is 400 or above, when the body cannot be
decoded, and when the decoded object has zero or several top-level keys. -/
theorem listResourceIDs_empty_on_failure (pm : PowerMax) (env : Env) (uri : String)
    (payload : List (String × String)) :
    (∀ resp err, pm.Post env uri (.keys payload) = (resp, some err) →
      pm.listResourceIDs env uri payload = .ok []) ∧
    (∀ resp, pm.Post env uri (.keys payload) = (some resp, none) → 399 < resp.StatusCode →
      pm.listResourceIDs env uri payload = .ok []) ∧
    (∀ resp, pm.Post env uri (.keys payload) = (some resp, none) →
      env.unmarshalObject resp.Body = none →
      pm.listResourceIDs env uri payload = .ok []) ∧
    (∀ resp data, pm.Post env uri (.keys payload) = (some resp, none) →
      env.unmarshalObject resp.Body = some data → data.length ≠ 1 →
      pm.listResourceIDs env uri payload = .ok []) := by
  refine ⟨?_, ?_, ?_, ?_⟩
  · intro resp err h
    simp [PowerMax.listResourceIDs, h]
  · intro resp h hs
    simp [PowerMax.listResourceIDs, h, Response.IsError, hs]
  · intro resp h hd
    simp [PowerMax.listResourceIDs, h, hd]
  · intro resp data h hd hl
    simp [PowerMax.listResourceIDs, h, hd, hl]

/-- C6 witness: a refused connection, a status 500, a body the decoder
rejects and a body with two top-level keys each give the empty list. -/
theorem listResourceIDs_empty_on_failure_witness :
    unisphere.ListCachePartitionIDs (keysEnv refused keysBody keysObject) = .ok [] ∧
      unisphere.ListCachePartitionIDs (keysEnv (some ⟨500, keysBody⟩, none) keysBody keysObject)
        = .ok [] ∧
      unisphere.ListCachePartitionIDs (keysEnv (some ⟨200, "<html>"⟩, none) keysBody keysObject)
        = .ok [] ∧
      unisphere.ListCachePartitionIDs
        (keysEnv (some ⟨200, twoKeyBody⟩, none) twoKeyBody twoKeyObject) = .ok [] :=
  ⟨(listResourceIDs_empty_on_failure unisphere (keysEnv refused keysBody keysObject)
      "/performance/CachePartition/keys" [("symmetrixId", "000197900123")]).1
      (some ⟨0, ""⟩) "dial tcp: connection refused" rfl,
    (listResourceIDs_empty_on_failure unisphere
      (keysEnv (some ⟨500, keysBody⟩, none) keysBody keysObject)
      "/performance/CachePartition/keys" [("symmetrixId", "000197900123")]).2.1
      ⟨500, keysBody⟩ rfl (by decide),
    (listResourceIDs_empty_on_failure unisphere
      (keysEnv (some ⟨200, "<html>"⟩, none) keysBody keysObject)
      "/performance/CachePartition/keys" [("symmetrixId", "000197900123")]).2.2.1
      ⟨200, "<html>"⟩ rfl rfl,
    (listResourceIDs_empty_on_failure unisphere
      (keysEnv (some ⟨200, twoKeyBody⟩, none) twoKeyBody twoKeyObject)
      "/performance/CachePartition/keys" [("symmetrixId", "000197900123")]).2.2.2
      ⟨200, twoKeyBody⟩ twoKeyObject rfl rfl (by decide)⟩

/-- C6 counterexample: with status 200, a single top-level key whose value is
not an array makes `listResourceIDs` panic, and so does an array element that
is not an object; and the non-2xx status 300 with the scenario body returns
the identifiers instead of the empty list. -/
theorem listResourceIDs_shape_mismatch_panics :
    unisphere.ListCachePartitionIDs
        (keysEnv (some ⟨200, messageBody⟩, none) messageBody messageObject) = .panic ∧
      unisphere.ListStorageGroupIDs
        (keysEnv (some ⟨200, flatBody⟩, none) flatBody flatObject) = .panic ∧
      unisphere.ListCachePartitionIDs
        (keysEnv (some ⟨300, keysBody⟩, none) keysBody keysObject) = .ok ["CP1", "CP2"] := by
  decide

/-! ## The tracked instance list -/

theorem Outcome.bind_eq_ok {α β : Type} (x : Outcome α) (f : α → Outcome β) (b : β)
    (h : x.bind f = .ok b) : ∃ a, x = .ok a ∧ f a = .ok b := by
  cases x with
  | ok a => exact ⟨a, rfl, h⟩
  | panic => simp [Outcome.bind] at h
  | fatal => simp [Outcome.bind] at h
  | blocked => simp [Outcome.bind] at h

theorem Collect_eq_ok (e : Exporter) (env : Env) (sent : List Metric) (e1 : Exporter)
    (h : Collect e env = .ok (sent, e1)) : refresh e env = .ok e1 := by
  unfold Collect at h
  obtain ⟨pts, -, h⟩ := Outcome.bind_eq_ok _ _ _ h
  split_ifs at h
  obtain ⟨e2, h2, h3⟩ := Outcome.bind_eq_ok _ _ _ h
  have : e2 = e1 := by
    simp only [Outcome.ok.injEq, Prod.mk.injEq] at h3
    exact h3.2
  rw [← this]
  exact h2

theorem refresh_eq_ok (e : Exporter) (env : Env) (e1 : Exporter)
    (h : refresh e env = .ok e1) :
    (¬ (e.resType = "storagegroup" ∧ env.Update = true) → e1.resources = e.resources) ∧
    ((e.resType = "storagegroup" ∧ env.Update = true) →
      ∃ sgs, listResources e.pm env "storagegroup" = .ok sgs ∧
        (sgs ≠ [] → e1.resources = sgs) ∧ (sgs = [] → e1.resources = e.resources)) := by
  unfold refresh at h
  by_cases hc : e.resType = "storagegroup" ∧ env.Update = true
  · simp only [hc, and_self, if_true] at h
    obtain ⟨sgs, hl, h⟩ := Outcome.bind_eq_ok _ _ _ h
    refine ⟨fun hn => absurd hc hn, fun _ => ⟨sgs, hl, ?_, ?_⟩⟩
    · intro hne
      have hpos : 0 < sgs.length := List.length_pos.mpr hne
      simp only [hpos, if_true, Outcome.ok.injEq] at h
      rw [← h]
    · intro he
      subst he
      simp only [List.length_nil, lt_self_iff_false, if_false, Outcome.ok.injEq] at h
      rw [← h]
  · simp only [hc, if_false, Outcome.ok.injEq] at h
    exact ⟨fun _ => by rw [← h], fun hn => absurd hn hc⟩

theorem Collect_keeps_nonempty (e : Exporter) (env : Env) (sent : List Metric) (e1 : Exporter)
    (h : Collect e env = .ok (sent, e1)) (hne : e.resources ≠ []) : e1.resources ≠ [] := by
  obtain ⟨h1, h2⟩ := refresh_eq_ok e env e1 (Collect_eq_ok e env sent e1 h)
  by_cases hc : e.resType = "storagegroup" ∧ env.Update = true
  · obtain ⟨sgs, -, h3, h4⟩ := h2 hc
    by_cases hs : sgs = []
    · rw [h4 hs]
      exact hne
    · rw [h3 hs]
      exact hs
  · rw [h1 hc]
    exact hne

theorem cycles_keep_nonempty (envs : List Env) (e e1 : Exporter)
    (h : cycles e envs = .ok e1) (hne : e.resources ≠ []) : e1.resources ≠ [] := by
  induction envs generalizing e with
  | nil =>
    simp only [cycles, Outcome.ok.injEq] at h
    rw [← h]
    exact hne
  | cons env rest ih =>
    simp only [cycles] at h
    obtain ⟨r, hr, h⟩ := Outcome.bind_eq_ok _ _ _ h
    exact ih r.2 h (Collect_keeps_nonempty e env r.1 r.2 hr hne)

theorem New_nonempty (pm : PowerMax) (env : Env) (resType : String) (e : Exporter)
    (h : New pm env resType = .ok e) : e.resources ≠ [] := by
  unfold New at h
  obtain ⟨resources, -, h⟩ := Outcome.bind_eq_ok _ _ _ h
  by_cases hl : resources.length = 0
  · simp [hl] at h
  · simp only [hl, if_false, Outcome.ok.injEq] at h
    rw [← h]
    intro he
    have he2 : resources = [] := he
    exact hl (by simp [he2])

/-- C7: after a `Collect` cycle that returns, the tracked list is the list from
before the cycle unless the type is `storagegroup` and `Config.Exporter.Update`
is set; in that case the storage groups are listed again and the tracked list
is the re-listing when it is non-empty and the previous list when it is
empty, so for a non-empty previous list it equals the re-listing exactly when
the re-listing is non-empty. A list that is non-empty stays non-empty, and
the list of an exporter made by `New` is non-empty after any number of cycles. -/
theorem Collect_tracked_list :
    (∀ (e : Exporter) (env : Env) (sent : List Metric) (e1 : Exporter),
      Collect e env = .ok (sent, e1) →
        (¬ (e.resType = "storagegroup" ∧ env.Update = true) → e1.resources = e.resources) ∧
        ((e.resType = "storagegroup" ∧ env.Update = true) →
          ∃ sgs, listResources e.pm env "storagegroup" = .ok sgs ∧
            (sgs ≠ [] → e1.resources = sgs) ∧ (sgs = [] → e1.resources = e.resources) ∧
            (e.resources ≠ [] → (e1.resources = sgs ↔ sgs ≠ []))) ∧
        (e.resources ≠ [] → e1.resources ≠ [])) ∧
    (∀ (pm : PowerMax) (env0 : Env) (resType : String) (e0 : Exporter) (envs : List Env)
      (e1 : Exporter),
      New pm env0 resType = .ok e0 → cycles e0 envs = .ok e1 → e1.resources ≠ []) := by
  constructor
  · intro e env sent e1 h
    obtain ⟨h1, h2⟩ := refresh_eq_ok e env e1 (Collect_eq_ok e env sent e1 h)
    refine ⟨h1, ?_, Collect_keeps_nonempty e env sent e1 h⟩
    intro hc
    obtain ⟨sgs, hl, h3, h4⟩ := h2 hc
    refine ⟨sgs, hl, h3, h4, ?_⟩
    intro hne
    constructor
    · intro heq hs
      rw [h4 hs, hs] at heq
      exact hne heq
    · exact h3
  · intro pm env0 resType e0 envs e1 hnew hrun
    exact cycles_keep_nonempty envs e0 e1 hrun (New_nonempty pm env0 resType e0 hnew)

/-- C7 witness: with refresh enabled, a cycle that re-lists `sg1`, `sg2`
replaces the tracked list `sg1`, a later cycle whose re-listing is empty
keeps it, and the list stays non-empty from `New` on. -/
theorem Collect_tracked_list_witness :
    Collect groupExporter groupsEnv = .ok ([], regroupedExporter) ∧
      (∃ sgs, listResources groupExporter.pm groupsEnv "storagegroup" = .ok sgs ∧
        (sgs ≠ [] → regroupedExporter.resources = sgs) ∧
        (sgs = [] → regroupedExporter.resources = groupExporter.resources) ∧
        (groupExporter.resources ≠ [] → (regroupedExporter.resources = sgs ↔ sgs ≠ []))) ∧
      Collect regroupedExporter noGroupsEnv = .ok ([], regroupedExporter) ∧
      New unisphere groupsEnv "storagegroup" = .ok regroupedExporter ∧
      cycles regroupedExporter [noGroupsEnv, groupsEnv, noGroupsEnv] = .ok regroupedExporter ∧
      regroupedExporter.resources ≠ [] :=
  ⟨by decide,
    (Collect_tracked_list.1 groupExporter groupsEnv [] regroupedExporter (by decide)).2.1
      (by decide),
    by decide, by decide, by decide,
    Collect_tracked_list.2 unisphere groupsEnv "storagegroup" regroupedExporter
      [noGroupsEnv, groupsEnv, noGroupsEnv] regroupedExporter (by decide) (by decide)⟩

/-! ## Label values -/

theorem Outcome.mapM_eq_ok {α β : Type} (f : α → Outcome β) (l : List α) (bs : List β)
    (h : Outcome.mapM f l = .ok bs) : ∀ b ∈ bs, ∃ a ∈ l, f a = .ok b := by
  induction l generalizing bs with
  | nil =>
    simp only [Outcome.mapM, Outcome.ok.injEq] at h
    subst h
    simp
  | cons a as ih =>
    simp only [Outcome.mapM] at h
    obtain ⟨b0, hb0, h⟩ := Outcome.bind_eq_ok _ _ _ h
    obtain ⟨bs0, hbs0, h⟩ := Outcome.bind_eq_ok _ _ _ h
    simp only [Outcome.ok.injEq] at h
    subst h
    intro b hb
    rcases List.mem_cons.mp hb with hb | hb
    · subst hb
      exact ⟨a, List.mem_cons_self _ _, hb0⟩
    · obtain ⟨a1, ha1, hf⟩ := ih bs0 hbs0 b hb
      exact ⟨a1, List.mem_cons_of_mem _ ha1, hf⟩

theorem MustNewConstMetric_labelValues (desc : Option Desc) (value : Float64)
    (labelValues : List String) (p : Metric)
    (h : MustNewConstMetric desc value labelValues = .ok p) : p.labelValues = labelValues := by
  unfold MustNewConstMetric at h
  cases desc with
  | none => simp at h
  | some d =>
    simp only at h
    split_ifs at h
    simp only [Outcome.ok.injEq] at h
    rw [← h]

theorem emit_labelValues (descs : List (String × Desc)) (metrics : Option Sample)
    (labelValues : List String) (pts : List Metric)
    (h : emit descs metrics labelValues = .ok pts) : ∀ p ∈ pts, p.labelValues = labelValues := by
  unfold emit at h
  cases metrics with
  | none =>
    simp only [Outcome.ok.injEq] at h
    subst h
    simp
  | some m =>
    simp only at h
    split_ifs at h
    · simp only [Outcome.ok.injEq] at h
      subst h
      simp
    · intro p hp
      obtain ⟨kv, -, hkv⟩ := Outcome.mapM_eq_ok _ _ _ h p hp
      exact MustNewConstMetric_labelValues _ _ _ _ hkv

theorem launch_labelValues (e : Exporter) (env : Env) (st et : Int) (res : Resource)
    (u : Outcome (List Metric)) (hu : u ∈ launch e env st et res) (pts : List Metric)
    (hpts : u = .ok pts) : ∀ p ∈ pts, p.labelValues = (labelm e.resType).map (mapGet res) := by
  subst hpts
  unfold launch at hu
  simp only [List.mem_append] at hu
  rcases hu with ((hu | hu) | hu) | hu
  · split_ifs at hu with hrt
    · simp only [List.mem_singleton] at hu
      obtain ⟨m, -, hm⟩ := Outcome.bind_eq_ok _ _ _ hu.symm
      intro p hp
      rw [emit_labelValues _ _ _ _ hm p hp, hrt]
      rfl
    · simp at hu
  · split_ifs at hu with hrt
    · simp only [List.mem_singleton] at hu
      obtain ⟨m, -, hm⟩ := Outcome.bind_eq_ok _ _ _ hu.symm
      intro p hp
      rw [emit_labelValues _ _ _ _ hm p hp, hrt]
      rfl
    · simp at hu
  · split_ifs at hu with hrt
    · simp only [List.mem_singleton] at hu
      obtain ⟨d, -, hd⟩ := Outcome.bind_eq_ok _ _ _ hu.symm
      obtain ⟨m, -, hm⟩ := Outcome.bind_eq_ok _ _ _ hd
      intro p hp
      rw [emit_labelValues _ _ _ _ hm p hp]
      rcases hrt with hrt | hrt <;> rw [hrt] <;> rfl
    · simp at hu
  · split_ifs at hu with hrt
    · simp only [List.mem_singleton] at hu
      obtain ⟨m, -, hm⟩ := Outcome.bind_eq_ok _ _ _ hu.symm
      intro p hp
      rw [emit_labelValues _ _ _ _ hm p hp, hrt]
      rfl
    · simp at hu

theorem listResources_schema (pm : PowerMax) (env : Env) (resType : String)
    (rs : List Resource) (h : listResources pm env resType = .ok rs) :
    ∀ res ∈ rs, res.map Prod.fst = labelm resType ∧
      (labelm resType).map (mapGet res) = res.map Prod.snd := by
  unfold listResources at h
  by_cases h1 : resType = "array"
  · subst h1
    simp [Outcome.bind] at h
    subst h
    simp [labelm, mapGet]
  by_cases h2 : resType = "cache"
  · subst h2
    simp only [h1, if_false, if_true] at h
    obtain ⟨ret2, hret2, h⟩ := Outcome.bind_eq_ok _ _ _ h
    obtain ⟨cids, -, hc⟩ := Outcome.bind_eq_ok _ _ _ hret2
    simp [Outcome.bind] at h hc
    subst hc
    subst h
    intro res hres
    simp only [List.mem_map] at hres
    obtain ⟨id, -, hid⟩ := hres
    subst hid
    simp [labelm, mapGet]
  by_cases h3 : resType = "feport" ∨ resType = "beport"
  · simp only [h1, h2, h3, if_false, if_true] at h
    obtain ⟨ret2, hret2, h⟩ := Outcome.bind_eq_ok _ _ _ h
    obtain ⟨ret3, hret3, h⟩ := Outcome.bind_eq_ok _ _ _ h
    obtain ⟨dtype, -, hret3⟩ := Outcome.bind_eq_ok _ _ _ hret3
    obtain ⟨dirs, -, hret3⟩ := Outcome.bind_eq_ok _ _ _ hret3
    obtain ⟨found, hfound, hret3⟩ := Outcome.bind_eq_ok _ _ _ hret3
    have hsg : resType ≠ "storagegroup" := by
      rcases h3 with h3 | h3 <;> rw [h3] <;> decide
    simp only [hsg, if_false, Outcome.ok.injEq] at h hret2 hret3
    subst hret2
    subst hret3
    subst h
    intro res hres
    simp only [List.nil_append, List.mem_flatten] at hres
    obtain ⟨l, hl, hres⟩ := hres
    obtain ⟨dir, -, hdir⟩ := Outcome.mapM_eq_ok _ _ _ hfound l hl
    obtain ⟨ports, -, hports⟩ := Outcome.bind_eq_ok _ _ _ hdir
    simp only [Outcome.ok.injEq] at hports
    subst hports
    simp only [List.mem_map] at hres
    obtain ⟨port, -, hport⟩ := hres
    subst hport
    rcases h3 with h3 | h3 <;> subst h3 <;> simp [labelm, mapGet]
  by_cases h4 : resType = "storagegroup"
  · subst h4
    simp only [h1, h2, h3, if_false, if_true] at h
    obtain ⟨ret2, hret2, h⟩ := Outcome.bind_eq_ok _ _ _ h
    obtain ⟨ret3, hret3, h⟩ := Outcome.bind_eq_ok _ _ _ h
    obtain ⟨sgs, -, h⟩ := Outcome.bind_eq_ok _ _ _ h
    simp only [Outcome.ok.injEq] at h hret2 hret3
    subst hret2
    subst hret3
    subst h
    intro res hres
    simp only [List.nil_append, List.mem_map] at hres
    obtain ⟨sg, -, hsg⟩ := hres
    subst hsg
    simp [labelm, mapGet]
  · simp only [h1, h2, h3, h4, if_false] at h
    simp [Outcome.bind] at h
    subst h
    simp

theorem Collect_sent (e : Exporter) (env : Env) (sent : List Metric) (e1 : Exporter)
    (h : Collect e env = .ok (sent, e1)) :
    ∀ p ∈ sent, ∃ res ∈ e.resources, ∃ u ∈ launch e env (CreateTimeRange env.now 600).1
      (CreateTimeRange env.now 600).2 res, ∃ pts, u = .ok pts ∧ p ∈ pts := by
  unfold Collect at h
  obtain ⟨ptss, hptss, h⟩ := Outcome.bind_eq_ok _ _ _ h
  split_ifs at h
  obtain ⟨e2, -, h⟩ := Outcome.bind_eq_ok _ _ _ h
  simp only [Outcome.ok.injEq, Prod.mk.injEq] at h
  intro p hp
  rw [← h.1, List.mem_flatten] at hp
  obtain ⟨pts, hpts, hp⟩ := hp
  obtain ⟨u, hu, hupts⟩ := Outcome.mapM_eq_ok _ _ _ hptss pts hpts
  rw [List.mem_flatten] at hu
  obtain ⟨us, hus, hu⟩ := hu
  rw [List.mem_map] at hus
  obtain ⟨res, hres, hl⟩ := hus
  subst hl
  exact ⟨res, hres, u, hu, pts, hupts, hp⟩

/-- C8: every data point a goroutine of `Collect` sends for an instance carries
as label values the instance's values for the label names of `labelm` of the
exporter's type, in that order, hence as many values as the type has label
names; every instance `listResources` produces has exactly those label names
as keys, in schema order, so the label values are the instance's values in
order; and every data point of a whole cycle is labelled this way by one of
the tracked instances. -/
theorem Collect_label_schema :
    (∀ (e : Exporter) (env : Env) (st et : Int) (res : Resource) (u : Outcome (List Metric)),
      u ∈ launch e env st et res → ∀ pts, u = .ok pts → ∀ p ∈ pts,
        p.labelValues = (labelm e.resType).map (mapGet res) ∧
        p.labelValues.length = (labelm e.resType).length) ∧
    (∀ (pm : PowerMax) (env : Env) (resType : String) (rs : List Resource),
      listResources pm env resType = .ok rs → ∀ res ∈ rs,
        res.map Prod.fst = labelm resType ∧
        (labelm resType).map (mapGet res) = res.map Prod.snd) ∧
    (∀ (e : Exporter) (env : Env) (sent : List Metric) (e1 : Exporter),
      Collect e env = .ok (sent, e1) → ∀ p ∈ sent, ∃ res ∈ e.resources,
        p.labelValues = (labelm e.resType).map (mapGet res) ∧
        p.labelValues.length = (labelm e.resType).length) := by
  refine ⟨?_, listResources_schema, ?_⟩
  · intro e env st et res u hu pts hpts p hp
    have h := launch_labelValues e env st et res u hu pts hpts p hp
    exact ⟨h, by rw [h, List.length_map]⟩
  · intro e env sent e1 h p hp
    obtain ⟨res, hres, u, hu, pts, hpts, hp1⟩ := Collect_sent e env sent e1 h p hp
    have h1 := launch_labelValues e env _ _ res u hu pts hpts p hp1
    exact ⟨res, hres, h1, by rw [h1, List.length_map]⟩

/-- C8 witness: the cache exporter's cycle for the scenario sends one data
point, labelled with the array id, `cache` and the partition name. -/
theorem Collect_label_schema_witness :
    Collect cacheExporter (scenarioEnv 200) = .ok ([scenarioPoint], cacheExporter) ∧
      scenarioPoint.labelValues = ["000197900123", "cache", "CP1"] ∧
      (∀ p ∈ [scenarioPoint], ∃ res ∈ cacheExporter.resources,
        p.labelValues = (labelm cacheExporter.resType).map (mapGet res) ∧
        p.labelValues.length = (labelm cacheExporter.resType).length) :=
  ⟨by decide, rfl,
    Collect_label_schema.2.2 cacheExporter (scenarioEnv 200) [scenarioPoint] cacheExporter
      (by decide)⟩

/-! ## Numeric coercion -/

theorem excessBits_of_lt (n : Nat) (h : n < 2 ^ 53) : excessBits n = 0 := by
  unfold excessBits
  rw [List.length_eq_zero, List.filter_eq_nil_iff]
  intro i _
  have h1 : 2 ^ 53 ≤ 2 ^ (53 + i) := Nat.pow_le_pow_right (by norm_num) (Nat.le_add_right _ _)
  simp only [decide_eq_true_eq, not_le]
  omega

theorem roundShift_zero (n : Nat) : roundShift n 0 = n := by
  simp [roundShift, Nat.mod_one]

theorem float64OfInt_exact (v : Int) (h : v.natAbs ≤ 2 ^ 53) : float64OfInt v = (v : ℚ) := by
  have hr : roundShift v.natAbs (excessBits v.natAbs) = v.natAbs := by
    rcases Nat.lt_or_ge v.natAbs (2 ^ 53) with hlt | hge
    · rw [excessBits_of_lt _ hlt, roundShift_zero]
    · have he : v.natAbs = 2 ^ 53 := Nat.le_antisymm h hge
      rw [he]
      decide
  unfold float64OfInt
  simp only [hr]
  by_cases hneg : v < 0
  · simp only [hneg, if_true]
    congr 1
    omega
  · simp only [hneg, if_false]
    have : ((v.natAbs : Int)) = v := by omega
    exact_mod_cast congrArg (fun z : Int => (z : ℚ)) this

theorem mem_mapSet_self {β : Type} (m : List (String × β)) (k : String) (v : β) :
    (k, v) ∈ mapSet m k v := by
  induction m with
  | nil => simp [mapSet]
  | cons hd tl ih =>
    obtain ⟨a, b⟩ := hd
    by_cases hak : a = k
    · simp [mapSet, hak]
    · simp only [mapSet, hak, if_false]
      exact List.mem_cons_of_mem _ ih

theorem mem_mapSet_of_ne {β : Type} (m : List (String × β)) (k : String) (v : β)
    (k1 : String) (v1 : β) (hmem : (k1, v1) ∈ m) (hne : k1 ≠ k) : (k1, v1) ∈ mapSet m k v := by
  induction m with
  | nil => simp at hmem
  | cons hd tl ih =>
    obtain ⟨a, b⟩ := hd
    by_cases hak : a = k
    · simp only [mapSet, hak, if_true]
      rcases List.mem_cons.mp hmem with h | h
      · exact absurd ((congrArg Prod.fst h).trans hak) hne
      · exact List.mem_cons_of_mem _ h
    · simp only [mapSet, hak, if_false]
      rcases List.mem_cons.mp hmem with h | h
      · rw [h]
        exact List.mem_cons_self _ _
      · exact List.mem_cons_of_mem _ (ih h)

theorem extractField_keeps (ret : Sample) (kv : String × GoValue) (k : String) (x : Float64)
    (hmem : (k, x) ∈ ret) (hne : k ≠ kv.1) : (k, x) ∈ extractField ret kv := by
  obtain ⟨a, v⟩ := kv
  by_cases hts : a = "timestamp"
  · simpa only [extractField, hts, if_true] using hmem
  · cases v <;> simp only [extractField, hts, if_false] <;>
      first | exact hmem | exact mem_mapSet_of_ne _ _ _ _ _ hmem hne

theorem foldl_extractField_keeps (latest : List (String × GoValue)) (acc : Sample) (k : String)
    (x : Float64) (hmem : (k, x) ∈ acc) (hk : k ∉ latest.map Prod.fst) :
    (k, x) ∈ latest.foldl extractField acc := by
  induction latest generalizing acc with
  | nil => exact hmem
  | cons hd tl ih =>
    simp only [List.map_cons, List.mem_cons, not_or] at hk
    exact ih _ (extractField_keeps acc hd k x hmem hk.1) hk.2

theorem extractField_stores (ret : Sample) (k : String) (v : GoValue) (x : ℚ)
    (hts : k ≠ "timestamp") (hval : v.numericValue = some x) (hex : v.exactlyConvertible) :
    (k, x) ∈ extractField ret (k, v) := by
  cases v with
  | int n =>
    simp only [GoValue.numericValue, Option.some.injEq] at hval
    simp only [extractField, hts, if_false, float64OfInt_exact n hex, hval]
    exact mem_mapSet_self _ _ _
  | int32 n =>
    simp only [GoValue.numericValue, Option.some.injEq] at hval
    have hb : n.natAbs ≤ 2 ^ 53 := by
      simp only [GoValue.exactlyConvertible] at hex
      omega
    simp only [extractField, hts, if_false, float64OfInt_exact n hb, hval]
    exact mem_mapSet_self _ _ _
  | int64 n =>
    simp only [GoValue.numericValue, Option.some.injEq] at hval
    simp only [extractField, hts, if_false, float64OfInt_exact n hex, hval]
    exact mem_mapSet_self _ _ _
  | float32 y =>
    simp only [GoValue.numericValue, Option.some.injEq] at hval
    simp only [extractField, hts, if_false, float64OfFloat32, hval]
    exact mem_mapSet_self _ _ _
  | float64 y =>
    simp only [GoValue.numericValue, Option.some.injEq] at hval
    simp only [extractField, hts, if_false, hval]
    exact mem_mapSet_self _ _ _
  | nil => simp [GoValue.numericValue] at hval
  | bool b => simp [GoValue.numericValue] at hval
  | string s => simp [GoValue.numericValue] at hval
  | slice l => simp [GoValue.numericValue] at hval
  | map m => simp [GoValue.numericValue] at hval

theorem foldl_extractField_stores (latest : List (String × GoValue)) (acc : Sample)
    (hnodup : (latest.map Prod.fst).Nodup) (k : String) (v : GoValue) (x : ℚ)
    (hmem : (k, v) ∈ latest) (hts : k ≠ "timestamp") (hval : v.numericValue = some x)
    (hex : v.exactlyConvertible) : (k, x) ∈ latest.foldl extractField acc := by
  induction latest generalizing acc with
  | nil => simp at hmem
  | cons hd tl ih =>
    simp only [List.map_cons, List.nodup_cons] at hnodup
    rw [List.foldl_cons]
    rcases List.mem_cons.mp hmem with h | h
    · subst h
      exact foldl_extractField_keeps tl _ k x (extractField_stores acc k v x hts hval hex)
        hnodup.1
    · exact ih _ hnodup.2 h

theorem exactlyConvertible_of_isJSONKind (v : GoValue) (x : ℚ)
    (hkind : v.isJSONKind = true) (hval : v.numericValue = some x) : v.exactlyConvertible := by
  cases v <;> simp_all [GoValue.isJSONKind, GoValue.numericValue, GoValue.exactlyConvertible]

/-- C10: whenever `extractLatestMetrics` returns a sample, every numeric field
other than `timestamp` of the record it selected is stored under its name
with exactly the number it holds, for every record whose field values are of
the kinds `json.Unmarshal` produces (a number is then a `float64`, stored
unchanged, so the integer 42 is stored as 42). -/
theorem coercion_lossless (unmarshal : String → Option baseResult) (resp : Response)
    (sample : Sample) (h : extractLatestMetrics unmarshal (some resp) = .ok (some sample)) :
    ∃ data latest, unmarshal resp.Body = some data ∧
      sliceIndex data.ResultList.Result (data.Count - 1) = some (.map latest) ∧
      ((latest.map Prod.fst).Nodup → (∀ kv ∈ latest, kv.2.isJSONKind = true) →
        ∀ k v x, (k, v) ∈ latest → k ≠ "timestamp" → v.numericValue = some x →
          (k, x) ∈ sample) := by
  obtain ⟨data, latest, hdec, hidx, hs⟩ := extractLatestMetrics_eq_some unmarshal resp sample h
  refine ⟨data, latest, hdec, hidx, ?_⟩
  intro hnodup hkinds k v x hmem hts hval
  rw [hs]
  exact foldl_extractField_stores latest [] hnodup k v x hmem hts hval
    (exactlyConvertible_of_isJSONKind v x (hkinds (k, v) hmem) hval)

/-- C10 witness: the integer 42 of `integerBody` is stored as 42, and the
sample of the scenario holds the `hitRatio` 85 of its last record. -/
theorem coercion_lossless_witness :
    (extractLatestMetrics integerUnmarshal (some ⟨200, integerBody⟩)
        = .ok (some [("hostIOs", 42)]) ∧
      ∃ data latest, integerUnmarshal integerBody = some data ∧
        sliceIndex data.ResultList.Result (data.Count - 1) = some (.map latest) ∧
        ((latest.map Prod.fst).Nodup → (∀ kv ∈ latest, kv.2.isJSONKind = true) →
          ∀ k v x, (k, v) ∈ latest → k ≠ "timestamp" → v.numericValue = some x →
            (k, x) ∈ ([("hostIOs", 42)] : Sample))) ∧
      (extractLatestMetrics scenarioUnmarshal (some ⟨200, scenarioBody⟩)
        = .ok (some [("hitRatio", 85)]) ∧
      ∃ data latest, scenarioUnmarshal scenarioBody = some data ∧
        sliceIndex data.ResultList.Result (data.Count - 1) = some (.map latest) ∧
        ((latest.map Prod.fst).Nodup → (∀ kv ∈ latest, kv.2.isJSONKind = true) →
          ∀ k v x, (k, v) ∈ latest → k ≠ "timestamp" → v.numericValue = some x →
            (k, x) ∈ ([("hitRatio", 85)] : Sample))) :=
  ⟨⟨by decide,
      coercion_lossless integerUnmarshal ⟨200, integerBody⟩ [("hostIOs", 42)] (by decide)⟩,
    ⟨by decide,
      coercion_lossless scenarioUnmarshal ⟨200, scenarioBody⟩ [("hitRatio", 85)] (by decide)⟩⟩

/-- The `int64` arm of the type switch, which no decoded record reaches, rounds
to a 53-bit significand: 9007199254740993, which is `2 ^ 53 + 1`, would be
stored as 9007199254740992. -/
theorem coercion_int64_rounds :
    (-2 ^ 63 ≤ (9007199254740993 : Int) ∧ (9007199254740993 : Int) < 2 ^ 63) ∧
      (GoValue.int64 9007199254740993).numericValue = some 9007199254740993 ∧
      (GoValue.int64 9007199254740993).isJSONKind = false ∧
      extractField [] ("writes", .int64 9007199254740993) = [("writes", 9007199254740992)] ∧
      [("timestamp", GoValue.float64 2), ("writes", GoValue.int64 9007199254740993)].foldl
        extractField [] = [("writes", 9007199254740992)] ∧
      (9007199254740992 : ℚ) ≠ 9007199254740993 := by
  refine ⟨by decide, ?_, rfl, by decide, by decide, by norm_num⟩
  simp [GoValue.numericValue]

/-! ## Startup -/

theorem managed_iff_mem (symmid : String) (arrays : List String) :
    managed symmid arrays = true ↔ symmid ∈ arrays := by
  induction arrays with
  | nil => simp [managed]
  | cons a rest ih =>
    by_cases h : symmid = a
    · simp [managed, h]
    · simp [managed, h, ih]

theorem NewPowerMax_of_listing (senv : StartEnv) (address user password symmid : String)
    (arrays : List String)
    (h : (initPowerMax address user password symmid).ListArrays senv = .ok arrays) :
    NewPowerMax senv address user password symmid =
      if symmid ∈ arrays then .ok (initPowerMax address user password symmid) else .fatal := by
  unfold NewPowerMax
  simp only [h, Outcome.bind, managed_iff_mem]
  by_cases hm : symmid ∈ arrays
  · have hl : arrays.length ≠ 0 := by
      intro h0
      rw [List.length_eq_zero] at h0
      rw [h0] at hm
      simp at hm
    simp [hl, hm]
  · simp [hm]

/-- C11: `NewPowerMax` returns the client object exactly when `ListArrays`
returns a list that contains the configured array id, and the object is the
one filled from the arguments; when the list is returned and does not contain
the id (in particular when it is empty) startup ends in `Logger.Fatalf`. The
list is the `symmetrixId` of each `arrayInfo` entry of the upstream's answer,
in order. -/
theorem NewPowerMax_iff_managed (senv : StartEnv) (address user password symmid : String) :
    ((∃ pm, NewPowerMax senv address user password symmid = .ok pm) ↔
      ∃ arrays, (initPowerMax address user password symmid).ListArrays senv = .ok arrays ∧
        symmid ∈ arrays) ∧
    (∀ pm, NewPowerMax senv address user password symmid = .ok pm →
      pm = initPowerMax address user password symmid) ∧
    (∀ arrays, (initPowerMax address user password symmid).ListArrays senv = .ok arrays →
      symmid ∉ arrays → NewPowerMax senv address user password symmid = .fatal) ∧
    (∀ resp data,
      (initPowerMax address user password symmid).Get senv "/performance/Array/keys" []
        = (some resp, none) →
      resp.IsError = false → senv.unmarshalArrays resp.Body = some data →
      (initPowerMax address user password symmid).ListArrays senv
        = .ok (data.ArrayInfo.map fun a => a.SymmetrixID)) := by
  refine ⟨⟨?_, ?_⟩, ?_, ?_, ?_⟩
  · rintro ⟨pm, h⟩
    obtain ⟨arrays, hl, h1⟩ := Outcome.bind_eq_ok _ _ _ h
    refine ⟨arrays, hl, ?_⟩
    rw [NewPowerMax_of_listing senv address user password symmid arrays hl] at h
    by_contra hm
    simp [hm] at h
  · rintro ⟨arrays, hl, hm⟩
    refine ⟨initPowerMax address user password symmid, ?_⟩
    rw [NewPowerMax_of_listing senv address user password symmid arrays hl]
    simp [hm]
  · intro pm h
    obtain ⟨arrays, hl, -⟩ := Outcome.bind_eq_ok _ _ _ h
    rw [NewPowerMax_of_listing senv address user password symmid arrays hl] at h
    by_cases hm : symmid ∈ arrays
    · simp only [hm, if_true, Outcome.ok.injEq] at h
      exact h.symm
    · simp [hm] at h
  · intro arrays hl hm
    rw [NewPowerMax_of_listing senv address user password symmid arrays hl]
    simp [hm]
  · intro resp data hget hok hdec
    simp [PowerMax.ListArrays, hget, hok, hdec]

/-- C11 witness: with configured id `000197900123`, the upstream list
`000197900123`, `000197900456` makes startup return the client object, and
the list `000197900456` and the empty list make it end in `Logger.Fatalf`. -/
theorem NewPowerMax_iff_managed_witness :
    NewPowerMax (arraysEnv ["000197900123", "000197900456"]) "unisphere" "smc" "smc"
        "000197900123" = .ok unisphere ∧
      (∃ pm, NewPowerMax (arraysEnv ["000197900123", "000197900456"]) "unisphere" "smc" "smc"
        "000197900123" = .ok pm) ∧
      NewPowerMax (arraysEnv ["000197900456"]) "unisphere" "smc" "smc" "000197900123"
        = .fatal ∧
      NewPowerMax (arraysEnv []) "unisphere" "smc" "smc" "000197900123" = .fatal :=
  ⟨by decide,
    (NewPowerMax_iff_managed (arraysEnv ["000197900123", "000197900456"]) "unisphere" "smc"
      "smc" "000197900123").1.mpr ⟨["000197900123", "000197900456"], by decide, by decide⟩,
    (NewPowerMax_iff_managed (arraysEnv ["000197900456"]) "unisphere" "smc" "smc"
      "000197900123").2.2.1 ["000197900456"] (by decide) (by decide),
    (NewPowerMax_iff_managed (arraysEnv []) "unisphere" "smc" "smc"
      "000197900123").2.2.1 [] (by decide) (by decide)⟩

/-! ## Units of a cycle -/

theorem launch_singleton (e : Exporter) (env : Env) (st et : Int) (res : Resource)
    (h : servedType e.resType) : ∃ u, launch e env st et res = [u] := by
  unfold servedType at h
  unfold launch
  rcases h with h | h | h | h | h <;> rw [h] <;> simp

theorem unitsOf_length (e : Exporter) (env : Env) (h : servedType e.resType) :
    (unitsOf e env).length = e.resources.length := by
  unfold unitsOf
  generalize e.resources = rs
  induction rs with
  | nil => rfl
  | cons r rest ih =>
    obtain ⟨u, hu⟩ := launch_singleton e env (CreateTimeRange env.now 600).1
      (CreateTimeRange env.now 600).2 r h
    rw [List.map_cons, List.flatten_cons, List.length_append, hu, ih]
    simp only [List.length_singleton, List.length_cons, List.length_nil]
    omega

theorem Outcome.mapM_length {α β : Type} (f : α → Outcome β) (l : List α) (bs : List β)
    (h : Outcome.mapM f l = .ok bs) : bs.length = l.length := by
  induction l generalizing bs with
  | nil =>
    simp only [Outcome.mapM, Outcome.ok.injEq] at h
    subst h
    rfl
  | cons a as ih =>
    simp only [Outcome.mapM] at h
    obtain ⟨b0, -, h⟩ := Outcome.bind_eq_ok _ _ _ h
    obtain ⟨bs0, hbs0, h⟩ := Outcome.bind_eq_ok _ _ _ h
    simp only [Outcome.ok.injEq] at h
    subst h
    simp [ih bs0 hbs0]

theorem Outcome.mapM_of_forall_ok {α β : Type} (f : α → Outcome β) (l : List α)
    (h : ∀ a ∈ l, ∃ b, f a = .ok b) : ∃ bs, Outcome.mapM f l = .ok bs := by
  induction l with
  | nil => exact ⟨[], rfl⟩
  | cons a as ih =>
    obtain ⟨b, hb⟩ := h a (List.mem_cons_self _ _)
    obtain ⟨bs, hbs⟩ := ih fun x hx => h x (List.mem_cons_of_mem _ hx)
    exact ⟨b :: bs, by simp [Outcome.mapM, hb, hbs, Outcome.bind]⟩

theorem Outcome.mapM_ok_forall {α β : Type} (f : α → Outcome β) (l : List α) (bs : List β)
    (h : Outcome.mapM f l = .ok bs) : ∀ a ∈ l, ∃ b, f a = .ok b := by
  induction l generalizing bs with
  | nil => simp
  | cons a as ih =>
    simp only [Outcome.mapM] at h
    obtain ⟨b0, hb0, h⟩ := Outcome.bind_eq_ok _ _ _ h
    obtain ⟨bs0, hbs0, -⟩ := Outcome.bind_eq_ok _ _ _ h
    intro x hx
    rcases List.mem_cons.mp hx with hx | hx
    · subst hx
      exact ⟨b0, hb0⟩
    · exact ih bs0 hbs0 x hx

theorem Collect_eq_units (e : Exporter) (env : Env) :
    Collect e env = (Outcome.mapM id (unitsOf e env)).bind fun sent =>
      if (unitsOf e env).length < e.resources.length then .blocked
      else if e.resources.length < (unitsOf e env).length then .panic
      else (refresh e env).bind fun e1 => .ok (sent.flatten, e1) := rfl

theorem Collect_ok_units (e : Exporter) (env : Env) (sent : List Metric) (e1 : Exporter)
    (h : Collect e env = .ok (sent, e1)) :
    (∀ u ∈ unitsOf e env, ∃ pts, u = .ok pts) ∧
      ∃ ptss, Outcome.mapM id (unitsOf e env) = .ok ptss ∧
        ptss.length = e.resources.length ∧ sent = ptss.flatten := by
  rw [Collect_eq_units] at h
  obtain ⟨ptss, hptss, h⟩ := Outcome.bind_eq_ok _ _ _ h
  split_ifs at h with h1 h2
  obtain ⟨e2, -, h⟩ := Outcome.bind_eq_ok _ _ _ h
  simp only [Outcome.ok.injEq, Prod.mk.injEq] at h
  refine ⟨fun u hu => Outcome.mapM_ok_forall id _ ptss hptss u hu, ptss, hptss, ?_, h.1.symm⟩
  rw [Outcome.mapM_length id _ ptss hptss]
  omega

theorem Collect_completes (e : Exporter) (env : Env) (h : servedType e.resType)
    (hall : ∀ u ∈ unitsOf e env, ∃ pts, u = .ok pts) :
    ∃ ptss, Outcome.mapM id (unitsOf e env) = .ok ptss ∧
      Collect e env = (refresh e env).bind fun e1 => .ok (ptss.flatten, e1) := by
  obtain ⟨ptss, hptss⟩ := Outcome.mapM_of_forall_ok id (unitsOf e env) hall
  refine ⟨ptss, hptss, ?_⟩
  rw [Collect_eq_units, hptss]
  simp [Outcome.bind, unitsOf_length e env h]

theorem emit_sendable (descs : List (String × Desc)) (labelValues : List String)
    (metrics : Option Sample) (h : sendable descs labelValues metrics) :
    ∃ pts, emit descs metrics labelValues = .ok pts := by
  unfold emit
  cases metrics with
  | none => exact ⟨[], rfl⟩
  | some m =>
    simp only
    split_ifs
    · exact ⟨[], rfl⟩
    · apply Outcome.mapM_of_forall_ok
      intro kv hkv
      obtain ⟨d, hd, hlen⟩ := h m rfl kv hkv
      refine ⟨{ desc := d, value := kv.2, labelValues := labelValues }, ?_⟩
      simp [MustNewConstMetric, hd, hlen]

/-- C9 (amended): for an exporter of one of the five resource types, each
tracked instance starts exactly one goroutine, so a cycle over K instances
starts K of them; `Collect` returns only when all K have returned, and what
was sent is what they sent; when all K return the wait ends and the cycle
goes on to its refresh step; and a goroutine returns whenever its fetch gave
no sample (the error cases that decode to none included) or a sample whose
metric names all have a descriptor with the label arity of the type. -/
theorem Collect_units :
    (∀ (e : Exporter) (env : Env), servedType e.resType →
      (∀ st et res, ∃ u, launch e env st et res = [u]) ∧
      (unitsOf e env).length = e.resources.length) ∧
    (∀ (e : Exporter) (env : Env) (sent : List Metric) (e1 : Exporter),
      Collect e env = .ok (sent, e1) →
        (∀ u ∈ unitsOf e env, ∃ pts, u = .ok pts) ∧
        ∃ ptss, Outcome.mapM id (unitsOf e env) = .ok ptss ∧
          ptss.length = e.resources.length ∧ sent = ptss.flatten) ∧
    (∀ (e : Exporter) (env : Env), servedType e.resType →
      (∀ u ∈ unitsOf e env, ∃ pts, u = .ok pts) →
        ∃ ptss, Outcome.mapM id (unitsOf e env) = .ok ptss ∧
          Collect e env = (refresh e env).bind fun e1 => .ok (ptss.flatten, e1)) ∧
    (∀ (e : Exporter) (env : Env) (st et : Int) (metrics : Option Sample),
      (∀ symmid resType, e.pm.GetLatestArrayMetrics env st et = .ok metrics →
        sendable e.descs [symmid, resType] metrics →
        ∃ pts, arrayUnit e env st et symmid resType = .ok pts) ∧
      (∀ symmid resType name, e.pm.GetLatestCacheMetrics env st et name = .ok metrics →
        sendable e.descs [symmid, resType, name] metrics →
        ∃ pts, cacheUnit e env st et symmid resType name = .ok pts) ∧
      (∀ symmid resType director port dirType, firstTwo resType = .ok dirType →
        e.pm.GetLatestPortMetrics env st et dirType director port = .ok metrics →
        sendable e.descs [symmid, resType, director, port] metrics →
        ∃ pts, portUnit e env st et symmid resType director port = .ok pts) ∧
      (∀ symmid resType name, e.pm.GetLatestStorageGroupMetrics env st et name = .ok metrics →
        sendable e.descs [symmid, resType, name] metrics →
        ∃ pts, storageGroupUnit e env st et symmid resType name = .ok pts)) := by
  refine ⟨?_, Collect_ok_units, Collect_completes, ?_⟩
  · intro e env h
    exact ⟨fun st et res => launch_singleton e env st et res h, unitsOf_length e env h⟩
  · intro e env st et metrics
    refine ⟨?_, ?_, ?_, ?_⟩
    · intro symmid resType hf hs
      simpa [arrayUnit, hf, Outcome.bind] using emit_sendable _ _ _ hs
    · intro symmid resType name hf hs
      simpa [cacheUnit, hf, Outcome.bind] using emit_sendable _ _ _ hs
    · intro symmid resType director port dirType hd hf hs
      simpa [portUnit, hd, hf, Outcome.bind] using emit_sendable _ _ _ hs
    · intro symmid resType name hf hs
      simpa [storageGroupUnit, hf, Outcome.bind] using emit_sendable _ _ _ hs

/-- C9 witness: the exporter tracking `CP1` and `CP2` starts two goroutines;
with the fetch for `CP1` answered 204 the first sends nothing, the second
sends its point, and the cycle returns that point. -/
theorem Collect_units_witness :
    (unitsOf twoCacheExporter (splitEnv ⟨204, ""⟩)).length = 2 ∧
      Collect twoCacheExporter (splitEnv ⟨204, ""⟩) = .ok ([secondPoint], twoCacheExporter) ∧
      (∃ ptss, Outcome.mapM id (unitsOf twoCacheExporter (splitEnv ⟨204, ""⟩)) = .ok ptss ∧
        ptss.length = twoCacheExporter.resources.length ∧ [secondPoint] = ptss.flatten) ∧
      (∃ ptss, Outcome.mapM id (unitsOf twoCacheExporter (splitEnv ⟨204, ""⟩)) = .ok ptss ∧
        Collect twoCacheExporter (splitEnv ⟨204, ""⟩)
          = (refresh twoCacheExporter (splitEnv ⟨204, ""⟩)).bind fun e1 =>
              .ok (ptss.flatten, e1)) ∧
      (∃ pts, cacheUnit twoCacheExporter (splitEnv ⟨204, ""⟩) 1599999400000 1600000000000
        "000197900123" "cache" "CP1" = .ok pts) ∧
      (∃ pts, cacheUnit twoCacheExporter (splitEnv ⟨204, ""⟩) 1599999400000 1600000000000
        "000197900123" "cache" "CP2" = .ok pts) :=
  ⟨(Collect_units.1 twoCacheExporter (splitEnv ⟨204, ""⟩) (Or.inr (Or.inl rfl))).2,
    by decide,
    (Collect_units.2.1 twoCacheExporter (splitEnv ⟨204, ""⟩) [secondPoint] twoCacheExporter
      (by decide)).2,
    Collect_units.2.2.1 twoCacheExporter (splitEnv ⟨204, ""⟩) (Or.inr (Or.inl rfl))
      (Collect_units.2.1 twoCacheExporter (splitEnv ⟨204, ""⟩) [secondPoint] twoCacheExporter
        (by decide)).1,
    (Collect_units.2.2.2 twoCacheExporter (splitEnv ⟨204, ""⟩) 1599999400000 1600000000000
      none).2.1 "000197900123" "cache" "CP1" (by decide)
      (fun m hm => absurd hm (by simp)),
    (Collect_units.2.2.2 twoCacheExporter (splitEnv ⟨204, ""⟩) 1599999400000 1600000000000
      (some [("hitRatio", 85)])).2.1 "000197900123" "cache" "CP2" (by decide)
      (fun m hm kv hkv => by
        simp only [Option.some.injEq] at hm
        subst hm
        simp only [List.mem_singleton] at hkv
        subst hkv
        exact ⟨⟨"hitRatio", "hitRatio", ["symmid", "type", "name"]⟩, by decide, by decide⟩)⟩

/-- C9 counterexample: the exporter tracks the two cache partitions `CP1` and
`CP2`. The fetch for `CP1` is answered 200 with a body announcing one record
and holding none, the fetch for `CP2` with the scenario body. The goroutine
of `CP1` panics, the one of `CP2` returns its point, and the cycle does not
complete; with `CP2` tracked alone the same upstream gives a completed cycle. -/
theorem Collect_unit_panic_ends_cycle :
    servedType twoCacheExporter.resType ∧ twoCacheExporter.resources.length = 2 ∧
      unitsOf twoCacheExporter (splitEnv ⟨200, shortBody⟩) = [.panic, .ok [secondPoint]] ∧
      Collect twoCacheExporter (splitEnv ⟨200, shortBody⟩) = .panic ∧
      Collect secondCacheExporter (splitEnv ⟨200, shortBody⟩)
        = .ok ([secondPoint], secondCacheExporter) :=
  ⟨Or.inr (Or.inl rfl), by decide, by decide, by decide, by decide⟩

end PowerMaxExporter
